import Mathlib

/-!
# Verification of the Web3 wallet-binding core (function_appwrite_web3)

A shallow embedding of the account-binding decision logic of the repository:
signature verification and address canonicalization (`src/web3-utils.ts`),
the find-or-create-with-wallet state machine (`src/appwrite-helpers.ts`, in
both variants present in the repository), and the request handlers
(`src/auth-handler.ts`, `src/wallet-manager.ts`).

JavaScript strings are modelled as lists of UTF-16 code units (`List Nat`),
so that `toLowerCase`, `trim` and truthiness (`!s` is true exactly on the
empty string) can be stated and proved arithmetically.  The external
identity store (Appwrite Users API) is a parameter: a record of operations
over an abstract state, instantiated once with a deterministic in-memory
store (for state-evolution claims) and once with a response oracle that
records the request trace (for the race/retry claims).  The external
`ethers` primitives (`verifyMessage` recovery and the EIP-55 checksum) are
parameters as well, constrained only by structural facts of those
primitives where a claim needs them.
-/

/-! ## JavaScript string model -/

/-- A JavaScript string: the list of its UTF-16 code units. -/
abbrev JStr := List Nat

/-- `String.prototype.toLowerCase` on one ASCII code unit. -/
def jsLowerCode (n : Nat) : Nat :=
  if 65 ≤ n ∧ n ≤ 90 then n + 32 else n

/-- `String.prototype.toLowerCase`. -/
def jsToLower (s : JStr) : JStr := s.map jsLowerCode

/-- Code units removed by `String.prototype.trim` (the ASCII ones). -/
def isWsCode (n : Nat) : Bool :=
  decide (n = 32 ∨ n = 9 ∨ n = 10 ∨ n = 11 ∨ n = 12 ∨ n = 13)

/-- `String.prototype.trim`: drop whitespace from both ends. -/
def jsTrim (s : JStr) : JStr :=
  ((s.dropWhile isWsCode).reverse.dropWhile isWsCode).reverse

/-- Embed a Lean string literal as a JS string (list of code units). -/
def strToJ (s : String) : JStr := s.data.map Char.toNat

/-- JS truthiness of a string: every string except `""` is truthy. -/
def jstrTruthy (s : JStr) : Bool := !s.isEmpty

theorem jsLowerCode_idem (n : Nat) : jsLowerCode (jsLowerCode n) = jsLowerCode n := by
  unfold jsLowerCode
  by_cases h : 65 ≤ n ∧ n ≤ 90
  · rw [if_pos h, if_neg (by omega)]
  · rw [if_neg h, if_neg h]

theorem jsToLower_idem (s : JStr) : jsToLower (jsToLower s) = jsToLower s := by
  unfold jsToLower
  rw [List.map_map]
  exact List.map_congr_left fun n _ => jsLowerCode_idem n

theorem isWsCode_lower (n : Nat) : isWsCode (jsLowerCode n) = isWsCode n := by
  unfold jsLowerCode isWsCode
  by_cases h : 65 ≤ n ∧ n ≤ 90
  · rw [if_pos h, decide_eq_decide]
    omega
  · rw [if_neg h]

theorem dropWhile_map_lower (s : JStr) :
    (s.map jsLowerCode).dropWhile isWsCode = (s.dropWhile isWsCode).map jsLowerCode := by
  induction s with
  | nil => rfl
  | cons a t ih =>
    simp only [List.map_cons, List.dropWhile_cons, isWsCode_lower]
    by_cases h : isWsCode a
    · simpa [h] using ih
    · simp [h]

theorem jsTrim_lower (s : JStr) : jsTrim (jsToLower s) = jsToLower (jsTrim s) := by
  unfold jsTrim jsToLower
  rw [dropWhile_map_lower, ← List.map_reverse, dropWhile_map_lower, ← List.map_reverse]

theorem dropWhile_of_head_false (p : Nat → Bool) (a : Nat) (t : List Nat)
    (h : p a = false) : (a :: t).dropWhile p = a :: t := by
  simp [List.dropWhile_cons, h]

/-- The head of `dropWhile p l`, if any, does not satisfy `p`. -/
theorem head_dropWhile_false (p : Nat → Bool) (l : List Nat) :
    ∀ a ∈ (l.dropWhile p).head?, p a = false := by
  induction l with
  | nil => intro a h; simp at h
  | cons b t ih =>
    intro a h
    by_cases hb : p b
    · exact ih a (by simpa [List.dropWhile_cons, hb] using h)
    · rw [dropWhile_of_head_false p b t (by simpa using hb)] at h
      simp only [List.head?_cons, Option.mem_def, Option.some.injEq] at h
      subst h
      simpa using hb

/-- `jsTrim s` is a prefix of `dropWhile isWsCode s`. -/
theorem jsTrim_isPre (s : JStr) : jsTrim s <+: s.dropWhile isWsCode := by
  unfold jsTrim
  have h : (s.dropWhile isWsCode).reverse.dropWhile isWsCode
      <:+ (s.dropWhile isWsCode).reverse :=
    List.dropWhile_suffix isWsCode
  have h2 := List.reverse_prefix.mpr h
  simpa using h2

theorem head_jsTrim_not_ws (s : JStr) : ∀ a ∈ (jsTrim s).head?, isWsCode a = false := by
  intro a h
  rcases jsTrim_isPre s with ⟨t, ht⟩
  apply head_dropWhile_false isWsCode s
  rw [← ht]
  cases hj : jsTrim s with
  | nil => rw [hj] at h; simp at h
  | cons b u =>
    rw [hj] at h
    simp only [List.head?_cons, Option.mem_def, Option.some.injEq] at h
    subst h
    simp [List.head?_append, hj]

theorem last_jsTrim_not_ws (s : JStr) : ∀ a ∈ (jsTrim s).getLast?, isWsCode a = false := by
  intro a h
  unfold jsTrim at h
  rw [List.getLast?_reverse] at h
  exact head_dropWhile_false isWsCode _ a h

/-- A string whose first and last code units are not whitespace is unchanged
by `trim`. -/
theorem jsTrim_eq_self (s : JStr) (h : ∀ a ∈ s.head?, isWsCode a = false)
    (h2 : ∀ a ∈ s.getLast?, isWsCode a = false) : jsTrim s = s := by
  unfold jsTrim
  cases s with
  | nil => rfl
  | cons a t =>
    rw [dropWhile_of_head_false _ _ _ (h a rfl)]
    cases hr : (a :: t).reverse with
    | nil => simp at hr
    | cons b u =>
      have hb : (a :: t).getLast? = some b := by
        rw [← List.head?_reverse, hr]; rfl
      rw [dropWhile_of_head_false _ _ _ (h2 b hb), ← hr, List.reverse_reverse]

theorem jsTrim_idem (s : JStr) : jsTrim (jsTrim s) = jsTrim s :=
  jsTrim_eq_self _ (head_jsTrim_not_ws s) (last_jsTrim_not_ws s)

/-! ## Preference bag (Appwrite user prefs)

The store keeps an open string-keyed bag per user (`UserPrefs` in
`src/types.ts`: `walletEth?: string`, `passkey_credentials?: boolean`,
plus arbitrary further keys).  We model it as an association list with
JS-object semantics: `setP` is the object spread `{ ...p, k: v }`,
`delP` is `delete p[k]`. -/

/-- A JS value stored in the preference bag. -/
inductive PrefVal where
  | str (s : JStr)
  | boolv (b : Bool)
  deriving DecidableEq, Repr

/-- The preference bag. -/
abbrev Prefs := List (String × PrefVal)

/-- Property read `p[k]`. -/
def getP (p : Prefs) (k : String) : Option PrefVal :=
  (p.find? (fun kv => decide (kv.1 = k))).map (fun kv => kv.2)

/-- Object spread `{ ...p, k: v }`: overwrite `k` if present, else append. -/
def setP (p : Prefs) (k : String) (v : PrefVal) : Prefs :=
  if p.any (fun kv => decide (kv.1 = k)) then
    p.map (fun kv => if kv.1 = k then (k, v) else kv)
  else
    p ++ [(k, v)]

/-- `delete p[k]`. -/
def delP (p : Prefs) (k : String) : Prefs :=
  p.filter (fun kv => !decide (kv.1 = k))

/-- The wallet preference key used by the repository. -/
def wkKey : String := "walletEth"

/-- The passkey preference key used by the repository. -/
def pkKey : String := "passkey_credentials"

/-- JS truthiness of a preference read (`Boolean(prefs.k)`):
`undefined`, `false` and `""` are falsy. -/
def truthyV : Option PrefVal → Bool
  | none => false
  | some (.str s) => !s.isEmpty
  | some (.boolv b) => b

/-- `prefs.walletEth?.toLowerCase()`: the stored wallet, lower-cased, when it
is a string (the only shape these flows ever store). -/
def prefsWalletLower (p : Prefs) : Option JStr :=
  match getP p wkKey with
  | some (.str s) => some (jsToLower s)
  | _ => none

/-- Truthiness of `existingWallet` (`undefined` and `""` are falsy). -/
def ewTruthy : Option JStr → Bool
  | none => false
  | some s => !s.isEmpty

/-- `existingWallet && existingWallet !== walletAddress`. -/
def ewConflict (ew : Option JStr) (w : JStr) : Bool :=
  match ew with
  | none => false
  | some s => !s.isEmpty && s ≠ w

theorem find?_map_overwrite (p : Prefs) (k : String) (v : PrefVal) :
    (p.map (fun kv => if kv.1 = k then (k, v) else kv)).find? (fun kv => decide (kv.1 = k))
      = if p.any (fun kv => decide (kv.1 = k)) then some (k, v) else none := by
  induction p with
  | nil => rfl
  | cons a t ih =>
    rw [List.map_cons, List.any_cons]
    by_cases ha : a.1 = k
    · rw [if_pos ha, List.find?_cons_of_pos _ (by simp), if_pos (by simp [ha])]
    · rw [if_neg ha, List.find?_cons_of_neg _ (by simpa using ha), ih]
      have h2 : (decide (a.1 = k) || t.any fun kv => decide (kv.1 = k))
          = (t.any fun kv => decide (kv.1 = k)) := by simp [ha]
      rw [h2]

theorem find?_map_preserve (p : Prefs) (k k' : String) (v : PrefVal) (h : k' ≠ k) :
    (p.map (fun kv => if kv.1 = k then (k, v) else kv)).find? (fun kv => decide (kv.1 = k'))
      = p.find? (fun kv => decide (kv.1 = k')) := by
  induction p with
  | nil => rfl
  | cons a t ih =>
    rw [List.map_cons]
    by_cases ha : a.1 = k
    · have h3 : ¬(a.1 = k') := by rw [ha]; exact fun hc => h hc.symm
      rw [if_pos ha,
        List.find?_cons_of_neg _ (by simp; exact fun hc => h hc.symm),
        List.find?_cons_of_neg _ (by simpa using h3), ih]
    · by_cases hk' : a.1 = k'
      · rw [if_neg ha, List.find?_cons_of_pos _ (by simpa using hk'),
          List.find?_cons_of_pos _ (by simpa using hk')]
      · rw [if_neg ha, List.find?_cons_of_neg _ (by simpa using hk'),
          List.find?_cons_of_neg _ (by simpa using hk'), ih]

theorem getP_setP_self (p : Prefs) (k : String) (v : PrefVal) :
    getP (setP p k v) k = some v := by
  unfold getP setP
  by_cases h : p.any (fun kv => decide (kv.1 = k))
  · rw [if_pos h, find?_map_overwrite, if_pos h]
    rfl
  · rw [if_neg h, List.find?_append]
    have h2 : p.find? (fun kv => decide (kv.1 = k)) = none := by
      rw [List.find?_eq_none]
      intro x hx
      simp only [List.any_eq_true, not_exists, not_and] at h
      simpa using h x hx
    rw [h2, List.find?_cons_of_pos _ (by simp)]
    rfl

theorem getP_setP_ne (p : Prefs) (k k' : String) (v : PrefVal) (h : k' ≠ k) :
    getP (setP p k v) k' = getP p k' := by
  unfold getP setP
  by_cases hany : p.any (fun kv => decide (kv.1 = k))
  · rw [if_pos hany, find?_map_preserve p k k' v h]
  · have hkk : ¬((k, v).1 = k') := fun hc => h hc.symm
    rw [if_neg hany, List.find?_append,
      List.find?_cons_of_neg _ (by simpa using hkk)]
    simp

theorem getP_delP_self (p : Prefs) (k : String) : getP (delP p k) k = none := by
  unfold getP delP
  have h2 : (p.filter (fun kv => !decide (kv.1 = k))).find? (fun kv => decide (kv.1 = k))
      = none := by
    rw [List.find?_eq_none]
    intro x hx
    have := List.of_mem_filter hx
    simpa using this
  rw [h2]
  rfl

theorem getP_delP_ne (p : Prefs) (k k' : String) (h : k' ≠ k) :
    getP (delP p k) k' = getP p k' := by
  unfold getP delP
  induction p with
  | nil => rfl
  | cons a t ih =>
    by_cases ha : a.1 = k
    · have h3 : ¬(a.1 = k') := by rw [ha]; exact fun hc => h hc.symm
      rw [List.filter_cons_of_neg (by simpa using ha),
        List.find?_cons_of_neg _ (by simpa using h3)]
      exact ih
    · rw [List.filter_cons_of_pos (by simpa using ha)]
      by_cases hk' : a.1 = k'
      · rw [List.find?_cons_of_pos _ (by simpa using hk'),
          List.find?_cons_of_pos _ (by simpa using hk')]
      · rw [List.find?_cons_of_neg _ (by simpa using hk'),
          List.find?_cons_of_neg _ (by simpa using hk')]
        exact ih

/-! ## web3-utils: signature verification and address canonicalization

`verifySignature` and `normalizeEthAddress` from `src/web3-utils.ts`.  The
external `ethers` primitives are parameters:

* `recover message signature` models `ethers.verifyMessage`: `none` when the
  library throws (malformed signature / recovery failure), otherwise the
  recovered signer address;
* `chk` models `getChecksumAddress` inside `ethers.getAddress`: the EIP-55
  re-capitalization of an address.  Where a claim needs it, we assume only
  the structural fact that checksumming changes letter case only
  (`jsToLower (chk a) = jsToLower a`).
-/

/-- `verifySignature(message, signature, address)`:
recover the signer and compare case-insensitively; any throw inside the
`try` yields `false`. -/
def verifySignature (recover : JStr → JStr → Option JStr)
    (message signature address : JStr) : Bool :=
  match recover message signature with
  | none => false
  | some recoveredAddress => jsToLower recoveredAddress == jsToLower address

/-- Hex digit code units (`0-9`, `a-f`, `A-F`). -/
def isHexDigitCode (n : Nat) : Bool :=
  decide ((48 ≤ n ∧ n ≤ 57) ∨ (97 ≤ n ∧ n ≤ 102) ∨ (65 ≤ n ∧ n ≤ 70))

/-- The `0x`-prefixed 40-hex-digit address format (`/^0x[0-9a-fA-F]{40}$/`),
the shape of every Ethereum address this system stores and compares
(`normalizeEthAddress` doc: "0x prefixed, 42 characters"). -/
def isHex40 (s : JStr) : Bool :=
  s.length == 42 && decide (s.take 2 = [48, 120]) && (s.drop 2).all isHexDigitCode

/-- Some uppercase hex letter occurs. -/
def hasUpperHexLetter (s : JStr) : Bool := s.any (fun n => decide (65 ≤ n ∧ n ≤ 70))

/-- Some lowercase hex letter occurs. -/
def hasLowerHexLetter (s : JStr) : Bool := s.any (fun n => decide (97 ≤ n ∧ n ≤ 102))

/-- `ethers.getAddress` on the `0x`-prefixed address format: validate the
format, checksum, and reject a mixed-case input whose checksum does not
match (`bad address checksum`); all-lowercase / all-uppercase inputs are
accepted without checksum validation.  `none` models a throw. -/
def ethGetAddress (chk : JStr → JStr) (s : JStr) : Option JStr :=
  if isHex40 s then
    let result := chk s
    if hasUpperHexLetter s && hasLowerHexLetter s && result ≠ s then none
    else some result
  else none

/-- `normalizeEthAddress(address)`: `ethers.getAddress(address).toLowerCase()`,
falling back to `(address || '').trim().toLowerCase()` when the library
throws. -/
def normalizeEthAddress (chk : JStr → JStr) (address : JStr) : JStr :=
  match ethGetAddress chk address with
  | some a => jsToLower a
  | none => jsToLower (jsTrim address)

/-- `createSignableMessage(message)`:
`` `Sign this message to authenticate: ${message}` ``. -/
def createSignableMessage (message : JStr) : JStr :=
  strToJ "Sign this message to authenticate: " ++ message

theorem isHex40_trim (s : JStr) (h : isHex40 s = true) : jsTrim s = s := by
  unfold isHex40 at h
  simp only [Bool.and_eq_true, beq_iff_eq, decide_eq_true_eq, List.all_eq_true] at h
  obtain ⟨⟨hlen, htake⟩, hall⟩ := h
  apply jsTrim_eq_self
  · intro a ha
    have hhead : s.head? = some 48 := by
      cases s with
      | nil => simp at hlen
      | cons b t =>
        have : b = 48 := by
          have := htake
          simp only [List.take_cons, List.take] at this
          cases t with
          | nil => simp at hlen
          | cons c u => simpa using congrArg List.head? this
        simp [this]
    rw [hhead] at ha
    simp only [Option.mem_def, Option.some.injEq] at ha
    subst ha
    rfl
  · intro a ha
    have hd : s = s.take 2 ++ s.drop 2 := (List.take_append_drop 2 s).symm
    have hne : s.drop 2 ≠ [] := by
      intro hc
      have := List.length_drop 2 s
      rw [hc] at this
      simp at this
      omega
    have hlast : s.getLast? = (s.drop 2).getLast? := by
      conv in s.getLast? => rw [hd]
      exact List.getLast?_append_of_ne_nil _ hne
    rw [hlast] at ha
    have hmem : a ∈ s.drop 2 := List.mem_of_mem_getLast? ha
    have := hall a hmem
    unfold isHexDigitCode at this
    simp only [decide_eq_true_eq] at this
    unfold isWsCode
    simp only [decide_eq_false_iff_not]
    omega

/-- Given that checksumming only changes letter case, `normalizeEthAddress`
is extensionally `toLowerCase ∘ trim`. -/
theorem normalize_eq_lower_trim (chk : JStr → JStr)
    (hlow : ∀ a, jsToLower (chk a) = jsToLower a) (s : JStr) :
    normalizeEthAddress chk s = jsToLower (jsTrim s) := by
  unfold normalizeEthAddress ethGetAddress
  by_cases hv : isHex40 s
  · rw [if_pos hv]
    by_cases hmix : hasUpperHexLetter s && hasLowerHexLetter s && chk s ≠ s
    · simp only [hmix, if_pos]
    · simp only [hmix, if_neg, Bool.false_eq_true, not_false_eq_true, ite_false]
      rw [hlow, isHex40_trim s hv]
  · rw [if_neg hv]

theorem normalizeEth_idem (chk : JStr → JStr)
    (hlow : ∀ a, jsToLower (chk a) = jsToLower a) (s : JStr) :
    normalizeEthAddress chk (normalizeEthAddress chk s) = normalizeEthAddress chk s := by
  rw [normalize_eq_lower_trim chk hlow, normalize_eq_lower_trim chk hlow,
    jsTrim_lower, jsTrim_idem, jsToLower_idem]

/-! ## Identity store interface

The Appwrite Users API operations used by the core, over an abstract
state `σ`.  `Except JsErr` models a thrown SDK error. -/

/-- A thrown JS error, as inspected by the handlers
(`error.message`, `error.code`, `error.type`). -/
structure JsErr where
  message : String
  code : Nat
  etype : String
  deriving DecidableEq, Repr

/-- A stored identity: `$id`, `email`, `prefs`. -/
structure User where
  id : String
  email : JStr
  prefs : Prefs
  deriving DecidableEq, Repr

/-- The Users API operations used by the core. -/
structure UsersApi (σ : Type) where
  list : JStr → σ → Except JsErr (List User) × σ
  create : String → JStr → σ → Except JsErr User × σ
  updatePrefs : String → Prefs → σ → Except JsErr Unit × σ
  get : String → σ → Except JsErr User × σ
  createToken : String → σ → Except JsErr String × σ

/-- `a || b` on JS strings represented as Lean `String` (ids, secrets). -/
def jsOrS (a b : String) : String := if a = "" then b else a

/-- `needle` matches at the start of `hay`. -/
def leadMatch : List Char → List Char → Bool
  | [], _ => true
  | _ :: _, [] => false
  | a :: as, b :: bs => a == b && leadMatch as bs

/-- Substring search used to model `String.prototype.includes`. -/
def subSearch (needle : List Char) : List Char → Bool
  | [] => needle.isEmpty
  | b :: t => leadMatch needle (b :: t) || subSearch needle t

/-- `hay.includes(needle)`. -/
def strIncludes (hay needle : String) : Bool := subSearch needle.data hay.data

/-! ### Deterministic in-memory store

One faithful instantiation of the Users API: lookup by exact email match,
creation rejecting duplicate emails (or ids) with the store's
`user_already_exists` condition, preference replacement by id. -/

/-- The store's "identity already exists" condition. -/
def userExistsErr : JsErr :=
  ⟨"A user with the same id, email, or phone already exists in this project.",
    409, "user_already_exists"⟩

/-- The store's "identity not found" condition. -/
def userNotFoundErr : JsErr :=
  ⟨"User with the requested ID could not be found.", 404, "user_not_found"⟩

/-- The identity store state: the list of identities, in creation order. -/
structure Store where
  users : List User
  deriving DecidableEq, Repr

/-- Deterministic store semantics. -/
def apiStore : UsersApi Store where
  list := fun e s => (.ok (s.users.filter (fun u => u.email == e)), s)
  create := fun uid e s =>
    if s.users.any (fun u => u.email == e) || s.users.any (fun u => u.id == uid) then
      (.error userExistsErr, s)
    else
      (.ok ⟨uid, e, []⟩, ⟨s.users ++ [⟨uid, e, []⟩]⟩)
  updatePrefs := fun uid p s =>
    if s.users.any (fun u => u.id == uid) then
      (.ok (), ⟨s.users.map (fun u => if u.id = uid then { u with prefs := p } else u)⟩)
    else
      (.error userNotFoundErr, s)
  get := fun uid s =>
    match s.users.find? (fun u => u.id == uid) with
    | some u => (.ok u, s)
    | none => (.error userNotFoundErr, s)
  createToken := fun _ s => (.ok "token-secret", s)

/-! ### Response-oracle store

A second instantiation that answers each operation from a supplied list of
responses and records the requests issued, so that call-sequence facts
(how many lookups, how many creation attempts) can be stated. -/

/-- A request issued to the store. -/
inductive StoreReq where
  | listReq (email : JStr)
  | createReq (userId : String) (email : JStr)
  | updReq (userId : String) (p : Prefs)
  | getReq (userId : String)
  | tokReq (userId : String)
  deriving DecidableEq, Repr

/-- An oracle response for one request. -/
inductive StoreResp where
  | listed (us : List User)
  | created (u : User)
  | updated
  | got (u : User)
  | token (secret : String)
  | failed (e : JsErr)
  deriving DecidableEq, Repr

/-- Oracle state: responses still pending, requests issued so far. -/
structure Tr where
  pending : List StoreResp
  trace : List StoreReq
  deriving DecidableEq, Repr

/-- Error answered when the oracle is exhausted or ill-shaped. -/
def oracleShapeErr : JsErr := ⟨"oracle: unexpected response shape", 0, "oracle"⟩

/-- Consume the next oracle response, recording the request. -/
def popResp (t : Tr) (r : StoreReq) : StoreResp × Tr :=
  match t.pending with
  | [] => (.failed oracleShapeErr, ⟨[], t.trace ++ [r]⟩)
  | x :: xs => (x, ⟨xs, t.trace ++ [r]⟩)

/-- Oracle store semantics. -/
def apiTrace : UsersApi Tr where
  list := fun e t =>
    match popResp t (.listReq e) with
    | (.listed us, t') => (.ok us, t')
    | (.failed er, t') => (.error er, t')
    | (_, t') => (.error oracleShapeErr, t')
  create := fun uid e t =>
    match popResp t (.createReq uid e) with
    | (.created u, t') => (.ok u, t')
    | (.failed er, t') => (.error er, t')
    | (_, t') => (.error oracleShapeErr, t')
  updatePrefs := fun uid p t =>
    match popResp t (.updReq uid p) with
    | (.updated, t') => (.ok (), t')
    | (.failed er, t') => (.error er, t')
    | (_, t') => (.error oracleShapeErr, t')
  get := fun uid t =>
    match popResp t (.getReq uid) with
    | (.got u, t') => (.ok u, t')
    | (.failed er, t') => (.error er, t')
    | (_, t') => (.error oracleShapeErr, t')
  createToken := fun uid t =>
    match popResp t (.tokReq uid) with
    | (.token sec, t') => (.ok sec, t')
    | (.failed er, t') => (.error er, t')
    | (_, t') => (.error oracleShapeErr, t')

/-! ## appwrite-helpers: find-or-create with wallet binding

Two variants of `findOrCreateUserWithWallet` exist in the repository.

* `findOrCreateUserWithWallet` is the one in `src/appwrite-helpers.ts`: on
  any error that is not one of its own validation rejections, it attempts
  to create a new identity once as a fallback (ignoring preference-update
  failures), and surfaces `Failed to create or find user` if that creation
  also fails.
* `findOrCreateUserWithWalletW` is the variant bundled with
  `web3-utils.ts` (the `ignore1/web3` function directory): a creation
  failure tagged as the store's already-exists condition re-runs the
  lookup once and binds/conflict-checks against the now-found identity;
  other failures surface `Failed to create or find user` without another
  creation attempt.

A throw inside the `try` body transfers to the catch handler, so both
variants are written as a try body routing every error through their
respective handler. -/

/-- Validation error thrown with `new Error(m)`. -/
def vErr (m : String) : JsErr := ⟨m, 0, ""⟩

/-- The passkey-conflict rejection message. -/
def passkeyMsg : String :=
  "Account already connected with passkey. Sign in with passkey to link wallet."

/-- The wallet-conflict rejection message. -/
def diffWalletMsg : String := "Email already bound to a different wallet"

/-- Catch handler of `src/appwrite-helpers.ts`: re-throw validation errors,
otherwise fall back to creating a new identity (ignoring a failing
preference update), wrapping a failing creation. -/
def focFallbackA (api : UsersApi σ) (fresh2 : String) (email walletAddress : JStr)
    (e : JsErr) (s : σ) : Except JsErr String × σ :=
  if strIncludes e.message "passkey" || strIncludes e.message "different wallet" then
    (.error e, s)
  else
    match api.create fresh2 email s with
    | (.error createError, s1) =>
      (.error (vErr ("Failed to create or find user: " ++ createError.message)), s1)
    | (.ok created, s1) =>
      let newUserId := jsOrS created.id fresh2
      match api.updatePrefs newUserId [(wkKey, .str walletAddress)] s1 with
      | (_, s2) => (.ok newUserId, s2)

/-- `findOrCreateUserWithWallet` from `src/appwrite-helpers.ts`. -/
def findOrCreateUserWithWallet (api : UsersApi σ) (fresh1 fresh2 : String)
    (email walletAddress : JStr) (s : σ) : Except JsErr String × σ :=
  match api.list email s with
  | (.error e, s1) => focFallbackA api fresh2 email walletAddress e s1
  | (.ok existingUsers, s1) =>
    match existingUsers with
    | existing :: _ =>
      let prefs := existing.prefs
      let existingWallet := prefsWalletLower prefs
      let hasPasskey := truthyV (getP prefs pkKey)
      if hasPasskey && !ewTruthy existingWallet then
        focFallbackA api fresh2 email walletAddress (vErr passkeyMsg) s1
      else if ewConflict existingWallet walletAddress then
        focFallbackA api fresh2 email walletAddress (vErr diffWalletMsg) s1
      else if !ewTruthy existingWallet then
        match api.updatePrefs existing.id (setP prefs wkKey (.str walletAddress)) s1 with
        | (.ok _, s2) => (.ok existing.id, s2)
        | (.error e, s2) => focFallbackA api fresh2 email walletAddress e s2
      else
        (.ok existing.id, s1)
    | [] =>
      match api.create fresh1 email s1 with
      | (.error e, s2) => focFallbackA api fresh2 email walletAddress e s2
      | (.ok created, s2) =>
        let newUserId := jsOrS created.id fresh1
        match api.updatePrefs newUserId [(wkKey, .str walletAddress)] s2 with
        | (.error e, s3) => focFallbackA api fresh2 email walletAddress e s3
        | (.ok _, s3) => (.ok newUserId, s3)

/-- Catch handler of the `web3-utils` bundle variant: re-throw validation
errors; on the store's already-exists condition, re-run the lookup once
(the inner `try`, whose own throws are wrapped as
`Failed to bind wallet to existing user`); otherwise wrap as
`Failed to create or find user`. -/
def focRaceW (api : UsersApi σ) (email walletAddress : JStr)
    (e : JsErr) (s : σ) : Except JsErr String × σ :=
  if strIncludes e.message "passkey" || strIncludes e.message "different wallet" then
    (.error e, s)
  else if strIncludes e.message "already exists" || e.code == 409
      || e.etype == "user_already_exists" then
    match api.list email s with
    | (.error retryError, s1) =>
      (.error (vErr ("Failed to bind wallet to existing user: " ++ retryError.message)), s1)
    | (.ok existingUsers, s1) =>
      match existingUsers with
      | existing :: _ =>
        let prefs := existing.prefs
        let existingWallet := prefsWalletLower prefs
        if ewConflict existingWallet walletAddress then
          (.error (vErr ("Failed to bind wallet to existing user: " ++ diffWalletMsg)), s1)
        else if !ewTruthy existingWallet then
          match api.updatePrefs existing.id (setP prefs wkKey (.str walletAddress)) s1 with
          | (.ok _, s2) => (.ok existing.id, s2)
          | (.error ue, s2) =>
            (.error (vErr ("Failed to bind wallet to existing user: " ++ ue.message)), s2)
        else
          (.ok existing.id, s1)
      | [] => (.error (vErr ("Failed to create or find user: " ++ e.message)), s1)
  else
    (.error (vErr ("Failed to create or find user: " ++ e.message)), s)

/-- `findOrCreateUserWithWallet` from the `web3-utils` bundle
(race-retry variant). -/
def findOrCreateUserWithWalletW (api : UsersApi σ) (fresh1 : String)
    (email walletAddress : JStr) (s : σ) : Except JsErr String × σ :=
  match api.list email s with
  | (.error e, s1) => focRaceW api email walletAddress e s1
  | (.ok existingUsers, s1) =>
    match existingUsers with
    | existing :: _ =>
      let prefs := existing.prefs
      let existingWallet := prefsWalletLower prefs
      let hasPasskey := truthyV (getP prefs pkKey)
      if hasPasskey && !ewTruthy existingWallet then
        focRaceW api email walletAddress (vErr passkeyMsg) s1
      else if ewConflict existingWallet walletAddress then
        focRaceW api email walletAddress (vErr diffWalletMsg) s1
      else if !ewTruthy existingWallet then
        match api.updatePrefs existing.id (setP prefs wkKey (.str walletAddress)) s1 with
        | (.ok _, s2) => (.ok existing.id, s2)
        | (.error e, s2) => focRaceW api email walletAddress e s2
      else
        (.ok existing.id, s1)
    | [] =>
      match api.create fresh1 email s1 with
      | (.error e, s2) => focRaceW api email walletAddress e s2
      | (.ok created, s2) =>
        let newUserId := jsOrS created.id fresh1
        match api.updatePrefs newUserId [(wkKey, .str walletAddress)] s2 with
        | (.error e, s3) => focRaceW api email walletAddress e s3
        | (.ok _, s3) => (.ok newUserId, s3)

/-- `createCustomToken(users, userId)`. -/
def createCustomToken (api : UsersApi σ) (userId : String) (s : σ) :
    Except JsErr (String × String) × σ :=
  match api.createToken userId s with
  | (.error e, s1) => (.error e, s1)
  | (.ok secret, s1) => (.ok (userId, secret), s1)

/-- Creation requests in a trace. -/
def countCreateReq (t : List StoreReq) : Nat :=
  (t.filter (fun r => match r with | .createReq _ _ => true | _ => false)).length

/-- Lookup requests in a trace. -/
def countListReq (t : List StoreReq) : Nat :=
  (t.filter (fun r => match r with | .listReq _ => true | _ => false)).length

/-! ## Request handlers

`handleAuthentication` (`src/auth-handler.ts`), `handleConnectWallet` and
`handleDisconnectWallet` (`src/wallet-manager.ts`).  A request body is
`none` when `JSON.parse` throws.  `envOk` is the presence of the two
Appwrite endpoint/project environment variables read by
`createAppwriteClient` (a missing one throws into the handler's outer
catch); `envApiKey` is `APPWRITE_FUNCTION_API_KEY || APPWRITE_API_KEY`. -/

/-- The body of a JSON response. -/
inductive RespBody where
  | errMsg (error : String)
  | tokenBody (userId secret : String)
  | walletBody (success : Bool) (userId : String) (message : String)
  deriving DecidableEq, Repr

/-- A handler response: HTTP status and JSON body. -/
structure HttpResponse where
  status : Nat
  body : RespBody
  deriving DecidableEq, Repr

/-- Authenticate request body. -/
structure AuthReq where
  email : JStr
  address : JStr
  signature : JStr
  message : JStr
  deriving DecidableEq, Repr

/-- Connect-wallet request body. -/
structure ConnReq where
  address : JStr
  signature : JStr
  message : JStr
  deriving DecidableEq, Repr

/-- Message of the error thrown by `createAppwriteClient` when the
endpoint/project environment variables are missing. -/
def envErrMsg : String :=
  "Appwrite environment variables not configured. Required: APPWRITE_FUNCTION_API_ENDPOINT, APPWRITE_FUNCTION_PROJECT_ID"

/-- JS truthiness of an optional string (`undefined` and `""` are falsy). -/
def optSTruthy : Option String → Bool
  | none => false
  | some s => !(s == "")

/-- `a || b` on optional strings. -/
def jsOrOptS (a b : Option String) : Option String :=
  if optSTruthy a then a else b

/-- `h.split(sep)` with JS semantics (consecutive separators yield empty
pieces). -/
def splitChar (c : Char) : List Char → List (List Char)
  | [] => [[]]
  | a :: t =>
    let r := splitChar c t
    if a == c then [] :: r
    else
      match r with
      | [] => [[a]]
      | h :: t2 => (a :: h) :: t2

/-- `extractUserIdFromAuth` from `src/wallet-manager.ts`: parse
`Bearer user_id.session_secret`. -/
def extractUserIdFromAuth (authHeader : Option String) : Option String :=
  match authHeader with
  | none => none
  | some h =>
    if h == "" then none
    else
      let parts := splitChar ' ' h.data
      if parts.length != 2 then none
      else if parts.head? != some "Bearer".data then none
      else
        match parts with
        | _ :: p1 :: _ => some (String.mk (p1.takeWhile (fun ch => ch != '.')))
        | _ => none

/-- `handleAuthentication` from `src/auth-handler.ts`. -/
def handleAuthentication (recover : JStr → JStr → Option JStr) (chk : JStr → JStr)
    (api : UsersApi σ) (envOk : Bool) (hdrApiKey : Option String)
    (fresh1 fresh2 : String) (body : Option AuthReq) (s : σ) : HttpResponse × σ :=
  match body with
  | none => (⟨400, .errMsg "Invalid JSON in request body"⟩, s)
  | some r =>
    if !jstrTruthy r.email || !jstrTruthy r.address || !jstrTruthy r.signature
        || !jstrTruthy r.message then
      (⟨400, .errMsg "Missing required fields"⟩, s)
    else if !verifySignature recover (createSignableMessage r.message) r.signature r.address then
      (⟨401, .errMsg "Invalid signature"⟩, s)
    else if !optSTruthy hdrApiKey then
      (⟨401, .errMsg "API key required"⟩, s)
    else if !envOk then
      (⟨500, .errMsg (jsOrS envErrMsg "Authentication failed")⟩, s)
    else
      let normalizedAddress := normalizeEthAddress chk r.address
      match findOrCreateUserWithWallet api fresh1 fresh2 r.email normalizedAddress s with
      | (.error userError, s1) =>
        (⟨if strIncludes userError.message "passkey"
              || strIncludes userError.message "different wallet" then 403 else 500,
          .errMsg (jsOrS userError.message "User authentication failed")⟩, s1)
      | (.ok userId, s1) =>
        match createCustomToken api userId s1 with
        | (.error e, s2) => (⟨500, .errMsg (jsOrS e.message "Authentication failed")⟩, s2)
        | (.ok tokenData, s2) => (⟨200, .tokenBody tokenData.1 tokenData.2⟩, s2)

/-- `handleConnectWallet` from `src/wallet-manager.ts`. -/
def handleConnectWallet (recover : JStr → JStr → Option JStr) (chk : JStr → JStr)
    (api : UsersApi σ) (envOk : Bool) (envApiKey : Option String)
    (auth1 auth2 : Option String) (body : Option ConnReq) (s : σ) : HttpResponse × σ :=
  match extractUserIdFromAuth (jsOrOptS auth1 auth2) with
  | none => (⟨401, .errMsg "Authentication required. Please log in first."⟩, s)
  | some userId =>
    if userId == "" then
      (⟨401, .errMsg "Authentication required. Please log in first."⟩, s)
    else
      match body with
      | none => (⟨400, .errMsg "Invalid JSON in request body"⟩, s)
      | some r =>
        if !jstrTruthy r.address || !jstrTruthy r.signature || !jstrTruthy r.message then
          (⟨400, .errMsg "Missing required fields: address, signature, message"⟩, s)
        else if !verifySignature recover (createSignableMessage r.message)
            r.signature r.address then
          (⟨401, .errMsg "Invalid signature. Wallet ownership could not be verified."⟩, s)
        else if !optSTruthy envApiKey then
          (⟨500, .errMsg "Server configuration error"⟩, s)
        else if !envOk then
          (⟨500, .errMsg (jsOrS envErrMsg "Failed to connect wallet")⟩, s)
        else
          let normalizedAddress := normalizeEthAddress chk r.address
          match api.get userId s with
          | (.error userError, s1) =>
            (⟨500, .errMsg (jsOrS userError.message "Failed to connect wallet")⟩, s1)
          | (.ok user, s1) =>
            let prefs := user.prefs
            let existingWallet := prefsWalletLower prefs
            if ewTruthy existingWallet && decide (existingWallet = some normalizedAddress) then
              (⟨200, .walletBody true userId "Wallet is already connected to this account"⟩, s1)
            else if ewConflict existingWallet normalizedAddress then
              (⟨403,
                .errMsg "Account already has a connected wallet. Disconnect the existing wallet first."⟩,
                s1)
            else
              match api.updatePrefs userId (setP prefs wkKey (.str normalizedAddress)) s1 with
              | (.error userError, s2) =>
                (⟨500, .errMsg (jsOrS userError.message "Failed to connect wallet")⟩, s2)
              | (.ok _, s2) =>
                (⟨200, .walletBody true userId "Wallet connected successfully to your account"⟩, s2)

/-- `handleDisconnectWallet` from `src/wallet-manager.ts`. -/
def handleDisconnectWallet (api : UsersApi σ) (envOk : Bool) (envApiKey : Option String)
    (auth1 auth2 : Option String) (s : σ) : HttpResponse × σ :=
  match extractUserIdFromAuth (jsOrOptS auth1 auth2) with
  | none => (⟨401, .errMsg "Authentication required. Please log in first."⟩, s)
  | some userId =>
    if userId == "" then
      (⟨401, .errMsg "Authentication required. Please log in first."⟩, s)
    else if !optSTruthy envApiKey then
      (⟨500, .errMsg "Server configuration error"⟩, s)
    else if !envOk then
      (⟨500, .errMsg (jsOrS envErrMsg "Failed to disconnect wallet")⟩, s)
    else
      match api.get userId s with
      | (.error userError, s1) =>
        (⟨500, .errMsg (jsOrS userError.message "Failed to disconnect wallet")⟩, s1)
      | (.ok user, s1) =>
        let prefs := user.prefs
        let hadWallet := truthyV (getP prefs wkKey)
        if !hadWallet then
          (⟨200, .walletBody true userId "No wallet connected to this account"⟩, s1)
        else
          let updatedPrefs := delP prefs wkKey
          match api.updatePrefs userId updatedPrefs s1 with
          | (.error userError, s2) =>
            (⟨500, .errMsg (jsOrS userError.message "Failed to disconnect wallet")⟩, s2)
          | (.ok _, s2) =>
            (⟨200,
              .walletBody true userId "Wallet disconnected successfully from your account"⟩, s2)

/-! ## System operations over the deterministic store -/

/-- Process-level configuration: external crypto primitives and
environment. -/
structure Cfg where
  recover : JStr → JStr → Option JStr
  chk : JStr → JStr
  envOk : Bool
  envApiKey : Option String

/-- One inbound request. -/
inductive SysOp where
  | authOp (hdrApiKey : Option String) (fresh1 fresh2 : String) (body : Option AuthReq)
  | connectOp (auth1 auth2 : Option String) (body : Option ConnReq)
  | disconnectOp (auth1 auth2 : Option String)

/-- Dispatch one request against the deterministic store. -/
def runOp (cfg : Cfg) (op : SysOp) (s : Store) : HttpResponse × Store :=
  match op with
  | .authOp hdrApiKey fresh1 fresh2 body =>
    handleAuthentication cfg.recover cfg.chk apiStore cfg.envOk hdrApiKey fresh1 fresh2 body s
  | .connectOp a1 a2 body =>
    handleConnectWallet cfg.recover cfg.chk apiStore cfg.envOk cfg.envApiKey a1 a2 body s
  | .disconnectOp a1 a2 =>
    handleDisconnectWallet apiStore cfg.envOk cfg.envApiKey a1 a2 s

/-- Run a request sequence, keeping the final store. -/
def runOps (cfg : Cfg) (ops : List SysOp) (s : Store) : Store :=
  ops.foldl (fun st op => (runOp cfg op st).2) s

/-! ## Small derived facts used by several claims -/

theorem ewConflict_of_not_truthy (ew : Option JStr) (w : JStr)
    (h : ewTruthy ew = false) : ewConflict ew w = false := by
  cases ew with
  | none => rfl
  | some s =>
    have h2 : (!s.isEmpty) = false := by simpa [ewTruthy] using h
    simp [ewConflict, h2]

/-! ## Claim theorems -/

/-- **C6.** `verifySignature(message, signature, address)` is total and
fail-closed: it is a Lean function into `Bool` (never throws), it returns
`true` exactly when the address recovered from `(message, signature)`
equals the claimed address case-insensitively, and a recovery failure
(the library throwing on a malformed signature or address) yields
`false`. -/
theorem C6_verify_fail_closed (recover : JStr → JStr → Option JStr)
    (m sig addr : JStr) :
    (verifySignature recover m sig addr = true
      ↔ ∃ r, recover m sig = some r ∧ jsToLower r = jsToLower addr)
    ∧ (recover m sig = none → verifySignature recover m sig addr = false) := by
  constructor
  · unfold verifySignature
    cases h : recover m sig with
    | none => simp
    | some r => simp
  · intro h
    unfold verifySignature
    rw [h]

theorem C6_verify_fail_closed_witness :
    verifySignature (fun _ _ => none) [] [] [] = false :=
  (C6_verify_fail_closed (fun _ _ => none) [] [] []).2 rfl

/-- **C7.** `normalizeEthAddress` is idempotent, case-insensitively equal
inputs canonicalize identically, and a syntactically invalid address falls
back to `trim().toLowerCase()` of the raw input.  The hypothesis is the
structural fact about the external checksum primitive: EIP-55
checksumming only changes letter case. -/
theorem C7_canonicalize_stable (chk : JStr → JStr)
    (hlow : ∀ a, jsToLower (chk a) = jsToLower a) :
    (∀ x, normalizeEthAddress chk (normalizeEthAddress chk x) = normalizeEthAddress chk x)
    ∧ (∀ x y, jsToLower x = jsToLower y →
        normalizeEthAddress chk x = normalizeEthAddress chk y)
    ∧ (∀ x, ethGetAddress chk x = none →
        normalizeEthAddress chk x = jsToLower (jsTrim x)) := by
  refine ⟨fun x => normalizeEth_idem chk hlow x, fun x y hxy => ?_, fun x hx => ?_⟩
  · rw [normalize_eq_lower_trim chk hlow, normalize_eq_lower_trim chk hlow]
    have h2 : jsToLower (jsTrim (jsToLower x)) = jsToLower (jsTrim (jsToLower y)) := by
      rw [hxy]
    rwa [jsTrim_lower, jsTrim_lower, jsToLower_idem, jsToLower_idem] at h2
  · unfold normalizeEthAddress
    rw [hx]

theorem C7_canonicalize_stable_witness :
    normalizeEthAddress jsToLower (normalizeEthAddress jsToLower (strToJ " 0xAB "))
      = normalizeEthAddress jsToLower (strToJ " 0xAB ") :=
  (C7_canonicalize_stable jsToLower jsToLower_idem).1 (strToJ " 0xAB ")

/-- **C1** (code bug).  The claim (and `SECURITY_ENHANCEMENT.md`) say an
identity with no bound wallet and no passkey must be rejected with
`AccountExists` (403) and never acquire a wallet through the
unauthenticated authenticate path.  The code has no such branch: run on a
store holding exactly the identity `u1` for `a@x.com` with an empty
preference bag, a verified authenticate request binds the caller's wallet
to `u1`'s preferences and succeeds with HTTP 200 and a token. -/
theorem C1_hijack_check_missing :
    runOp ⟨fun _ _ => some (strToJ "0xabc"), jsToLower, true, some "k"⟩
        (.authOp (some "key") "f1" "f2"
          (some ⟨strToJ "a@x.com", strToJ "0xabc", strToJ "0xsig", strToJ "auth-1"⟩))
        ⟨[⟨"u1", strToJ "a@x.com", []⟩]⟩
      = (⟨200, .tokenBody "u1" "token-secret"⟩,
         ⟨[⟨"u1", strToJ "a@x.com", [(wkKey, .str (strToJ "0xabc"))]⟩]⟩) := by
  decide

/-- **C2** (counterexample).  In the `src/appwrite-helpers.ts` variant, a
creation failure carrying the store's already-exists condition is NOT
answered by re-running the lookup: the catch handler issues a second
creation attempt.  On an oracle where the lookup finds nothing and the
first creation fails with `user_already_exists`, the issued request trace
holds two creation requests and a single lookup. -/
theorem C2_fallback_creates_again :
    (findOrCreateUserWithWallet apiTrace "f1" "f2" (strToJ "a@x.com") (strToJ "0xabc")
        ⟨[.listed [], .failed userExistsErr, .created ⟨"f2", strToJ "a@x.com", []⟩,
          .updated], []⟩).2.trace
      = [.listReq (strToJ "a@x.com"), .createReq "f1" (strToJ "a@x.com"),
         .createReq "f2" (strToJ "a@x.com"),
         .updReq "f2" [(wkKey, .str (strToJ "0xabc"))]]
    ∧ countCreateReq
        [StoreReq.listReq (strToJ "a@x.com"), .createReq "f1" (strToJ "a@x.com"),
         .createReq "f2" (strToJ "a@x.com"),
         .updReq "f2" [(wkKey, .str (strToJ "0xabc"))]] = 2 := by
  constructor
  · decide
  · decide

/-- **C2** (amended).  In the race-retry variant of
`findOrCreateUserWithWallet` (the `web3-utils` bundle,
`src/unnamed/part_002`): when the lookup finds no identity and creation
fails with the store's already-exists condition, the lookup is re-run
exactly once and the decision falls through to the found-identity
branches (first-time bind, wallet conflict, or already-bound); if the
retried lookup still finds nothing, a server error surfaces with no
second creation attempt; and a creation failure not tagged already-exists
is surfaced as a server error without any further creation attempt.  (In
the `src/appwrite-helpers.ts` variant this fails: see the
counterexample.) -/
theorem C2_race_retry_once :
    (∀ (e : JsErr) (u : User) (em w : JStr) (f1 : String),
      (strIncludes e.message "passkey" || strIncludes e.message "different wallet") = false →
      (strIncludes e.message "already exists" || e.code == 409
        || e.etype == "user_already_exists") = true →
      (ewTruthy (prefsWalletLower u.prefs) = false →
        findOrCreateUserWithWalletW apiTrace f1 em w
            ⟨[.listed [], .failed e, .listed [u], .updated], []⟩
          = (.ok u.id,
             ⟨[], [.listReq em, .createReq f1 em, .listReq em,
                   .updReq u.id (setP u.prefs wkKey (.str w))]⟩))
      ∧ (ewConflict (prefsWalletLower u.prefs) w = true →
        findOrCreateUserWithWalletW apiTrace f1 em w
            ⟨[.listed [], .failed e, .listed [u], .updated], []⟩
          = (.error (vErr ("Failed to bind wallet to existing user: " ++ diffWalletMsg)),
             ⟨[.updated], [.listReq em, .createReq f1 em, .listReq em]⟩))
      ∧ (ewTruthy (prefsWalletLower u.prefs) = true →
        ewConflict (prefsWalletLower u.prefs) w = false →
        findOrCreateUserWithWalletW apiTrace f1 em w
            ⟨[.listed [], .failed e, .listed [u], .updated], []⟩
          = (.ok u.id, ⟨[.updated], [.listReq em, .createReq f1 em, .listReq em]⟩))
      ∧ findOrCreateUserWithWalletW apiTrace f1 em w
            ⟨[.listed [], .failed e, .listed []], []⟩
          = (.error (vErr ("Failed to create or find user: " ++ e.message)),
             ⟨[], [.listReq em, .createReq f1 em, .listReq em]⟩))
    ∧ (∀ (e : JsErr) (em w : JStr) (f1 : String),
      (strIncludes e.message "passkey" || strIncludes e.message "different wallet") = false →
      (strIncludes e.message "already exists" || e.code == 409
        || e.etype == "user_already_exists") = false →
      findOrCreateUserWithWalletW apiTrace f1 em w ⟨[.listed [], .failed e], []⟩
        = (.error (vErr ("Failed to create or find user: " ++ e.message)),
           ⟨[], [.listReq em, .createReq f1 em]⟩)) := by
  constructor
  · intro e u em w f1 hv htag
    refine ⟨fun hbind => ?_, fun hconf => ?_, fun htr hnc => ?_, ?_⟩
    · simp only [findOrCreateUserWithWalletW, apiTrace, popResp, focRaceW, hv, htag,
        ewConflict_of_not_truthy _ w hbind, hbind]
      simp
    · simp only [findOrCreateUserWithWalletW, apiTrace, popResp, focRaceW, hv, htag, hconf]
      simp
    · simp only [findOrCreateUserWithWalletW, apiTrace, popResp, focRaceW, hv, htag,
        hnc, htr]
      simp
    · simp only [findOrCreateUserWithWalletW, apiTrace, popResp, focRaceW, hv, htag]
      simp
  · intro e em w f1 hv htag
    simp only [findOrCreateUserWithWalletW, apiTrace, popResp, focRaceW, hv, htag]
    simp

theorem C2_race_retry_once_witness :
    findOrCreateUserWithWalletW apiTrace "f1" (strToJ "a@x.com") (strToJ "0xabc")
        ⟨[.listed [], .failed userExistsErr,
          .listed [⟨"u9", strToJ "a@x.com", []⟩], .updated], []⟩
      = (.ok "u9",
         ⟨[], [.listReq (strToJ "a@x.com"), .createReq "f1" (strToJ "a@x.com"),
               .listReq (strToJ "a@x.com"),
               .updReq "u9" (setP [] wkKey (.str (strToJ "0xabc")))]⟩) :=
  (C2_race_retry_once.1 userExistsErr ⟨"u9", strToJ "a@x.com", []⟩
    (strToJ "a@x.com") (strToJ "0xabc") "f1" (by decide) (by decide)).1 (by decide)

theorem focA_store_bind (s : Store) (f1 f2 : String) (em w : JStr)
    (u : User) (t : List User)
    (hf : s.users.filter (fun v => v.email == em) = u :: t)
    (hpk : truthyV (getP u.prefs pkKey) = false)
    (hew : ewTruthy (prefsWalletLower u.prefs) = false) :
    findOrCreateUserWithWallet apiStore f1 f2 em w s =
      (.ok u.id,
       ⟨s.users.map (fun v =>
          if v.id = u.id then { v with prefs := setP u.prefs wkKey (.str w) } else v)⟩) := by
  have hmem : u ∈ s.users := by
    have h2 : u ∈ s.users.filter (fun v => v.email == em) := by rw [hf]; simp
    exact List.mem_of_mem_filter h2
  have hany : s.users.any (fun v => v.id == u.id) = true := by
    rw [List.any_eq_true]
    exact ⟨u, hmem, by simp⟩
  unfold findOrCreateUserWithWallet apiStore
  simp only [hf, hpk, hew, hany, ewConflict_of_not_truthy _ w hew]
  simp

theorem focA_store_already (s : Store) (f1 f2 : String) (em w : JStr)
    (u : User) (t : List User)
    (hf : s.users.filter (fun v => v.email == em) = u :: t)
    (hew : ewTruthy (prefsWalletLower u.prefs) = true)
    (hconf : ewConflict (prefsWalletLower u.prefs) w = false) :
    findOrCreateUserWithWallet apiStore f1 f2 em w s = (.ok u.id, s) := by
  unfold findOrCreateUserWithWallet apiStore
  simp only [hf, hew, hconf]
  simp

theorem focA_store_create (s : Store) (f1 f2 : String) (em w : JStr)
    (hf : s.users.filter (fun v => v.email == em) = [])
    (hid : s.users.any (fun v => v.id == f1) = false) :
    findOrCreateUserWithWallet apiStore f1 f2 em w s =
      (.ok f1, ⟨s.users ++ [⟨f1, em, [(wkKey, .str w)]⟩]⟩) := by
  have hem : s.users.any (fun v => v.email == em) = false := by
    rw [List.any_eq_false]
    intro v hv
    have := List.filter_eq_nil_iff.mp hf v hv
    simpa using this
  have hmap : (s.users ++ [(⟨f1, em, []⟩ : User)]).map
      (fun v => if v.id = f1 then { v with prefs := [(wkKey, .str w)] } else v)
      = s.users ++ [⟨f1, em, [(wkKey, .str w)]⟩] := by
    rw [List.map_append]
    congr 1
    · conv_rhs => rw [← List.map_id s.users]
      apply List.map_congr_left
      intro v hv
      have h3 : ¬(v.id = f1) := by
        rw [List.any_eq_false] at hid
        have := hid v hv
        simpa using this
      rw [if_neg h3]
      rfl
    · simp
  unfold findOrCreateUserWithWallet apiStore
  simp only [hf, hem, hid, jsOrS]
  simp only [Bool.false_or, Bool.or_self, if_neg, List.any_append]
  simp [hmap, jsOrS]

theorem focA_store_passkey (s : Store) (f1 f2 : String) (em w : JStr)
    (u : User) (t : List User)
    (hf : s.users.filter (fun v => v.email == em) = u :: t)
    (hpk : truthyV (getP u.prefs pkKey) = true)
    (hew : ewTruthy (prefsWalletLower u.prefs) = false) :
    findOrCreateUserWithWallet apiStore f1 f2 em w s = (.error (vErr passkeyMsg), s) := by
  unfold findOrCreateUserWithWallet apiStore
  simp only [hf, hpk, hew, focFallbackA]
  simp only [show strIncludes (vErr passkeyMsg).message "passkey" = true from by decide]
  simp

theorem focA_store_conflict (s : Store) (f1 f2 : String) (em w : JStr)
    (u : User) (t : List User)
    (hf : s.users.filter (fun v => v.email == em) = u :: t)
    (hconf : ewConflict (prefsWalletLower u.prefs) w = true) :
    findOrCreateUserWithWallet apiStore f1 f2 em w s = (.error (vErr diffWalletMsg), s) := by
  have hew : ewTruthy (prefsWalletLower u.prefs) = true := by
    by_contra hc
    rw [ewConflict_of_not_truthy _ _ (by simpa using hc)] at hconf
    exact Bool.false_ne_true hconf
  unfold findOrCreateUserWithWallet apiStore
  simp only [hf, hconf, hew, focFallbackA]
  simp only [show strIncludes (vErr diffWalletMsg).message "different wallet" = true from by decide]
  simp

/-- **C4.** When the authenticate email resolves to an existing identity
with `hasPasskey = true` and no bound wallet: (i) for every request with
that email — any claimed address, signature, API key or environment — the
store is unchanged, so the identity never acquires a wallet and no
preference write occurs; (ii) a well-formed request whose signature
verifies is rejected with HTTP 403 and the passkey-protected reason. -/
theorem C4_passkey_protected :
    ∀ (recover : JStr → JStr → Option JStr) (chk : JStr → JStr) (envOk : Bool)
      (hdrApiKey : Option String) (f1 f2 : String) (em : JStr) (u : User)
      (t : List User) (s : Store) (r : AuthReq),
      s.users.filter (fun v => v.email == em) = u :: t →
      truthyV (getP u.prefs pkKey) = true →
      ewTruthy (prefsWalletLower u.prefs) = false →
      r.email = em →
      ((handleAuthentication recover chk apiStore envOk hdrApiKey f1 f2 (some r) s).2 = s
      ∧ (jstrTruthy r.email = true → jstrTruthy r.address = true →
        jstrTruthy r.signature = true → jstrTruthy r.message = true →
        verifySignature recover (createSignableMessage r.message) r.signature r.address = true →
        optSTruthy hdrApiKey = true → envOk = true →
        handleAuthentication recover chk apiStore envOk hdrApiKey f1 f2 (some r) s
          = (⟨403, .errMsg passkeyMsg⟩, s))) := by
  intro recover chk envOk hdrApiKey f1 f2 em u t s r hf hpk hew hre
  subst hre
  constructor
  · unfold handleAuthentication
    dsimp only
    split
    · rfl
    · split
      · rfl
      · split
        · rfl
        · split
          · rfl
          · rw [focA_store_passkey s f1 f2 r.email (normalizeEthAddress chk r.address)
              u t hf hpk hew]
  · intro he ha hsg hm hv hk henv
    subst henv
    unfold handleAuthentication
    dsimp only
    simp only [he, ha, hsg, hm, hv, hk, Bool.not_true, Bool.or_self, Bool.false_or,
      Bool.or_false, Bool.not_false, if_false, ite_false, Bool.false_eq_true]
    rw [focA_store_passkey s f1 f2 r.email (normalizeEthAddress chk r.address) u t hf hpk hew]
    simp only [show strIncludes (vErr passkeyMsg).message "passkey" = true from by decide,
      Bool.true_or]
    simp [jsOrS, vErr, passkeyMsg]

theorem C4_passkey_protected_witness :
    handleAuthentication (fun _ _ => some (strToJ "0xabc")) jsToLower apiStore true
        (some "key") "f1" "f2"
        (some ⟨strToJ "a@x.com", strToJ "0xabc", strToJ "0xsig", strToJ "auth-1"⟩)
        ⟨[⟨"u1", strToJ "a@x.com", [(pkKey, .boolv true)]⟩]⟩
      = (⟨403, .errMsg passkeyMsg⟩,
         ⟨[⟨"u1", strToJ "a@x.com", [(pkKey, .boolv true)]⟩]⟩) :=
  (C4_passkey_protected (fun _ _ => some (strToJ "0xabc")) jsToLower true (some "key")
    "f1" "f2" (strToJ "a@x.com") ⟨"u1", strToJ "a@x.com", [(pkKey, .boolv true)]⟩ []
    ⟨[⟨"u1", strToJ "a@x.com", [(pkKey, .boolv true)]⟩]⟩
    ⟨strToJ "a@x.com", strToJ "0xabc", strToJ "0xsig", strToJ "auth-1"⟩
    (by decide) (by decide) (by decide) rfl).2
    (by decide) (by decide) (by decide) (by decide) (by decide) (by decide) rfl

/-- **C9.** A request whose signature fails verification is answered 401
before the identity store is touched: for EVERY store implementation
`api` over every state `s`, the authenticate and connect-wallet handlers
return the 401 signature response with the state component exactly `s` —
in particular no lookup, creation or preference write is invoked (the
instrumented `apiTrace` instantiation records a request for each invoked
operation in the state, and the state is unchanged). -/
theorem C9_invalid_signature_no_store_ops :
    ∀ (σ : Type) (api : UsersApi σ) (recover : JStr → JStr → Option JStr)
      (chk : JStr → JStr) (envOk : Bool) (hdrApiKey envApiKey auth1 auth2 : Option String)
      (f1 f2 : String) (r : AuthReq) (c : ConnReq) (s : σ),
      (verifySignature recover (createSignableMessage r.message) r.signature r.address = false →
        jstrTruthy r.email = true → jstrTruthy r.address = true →
        jstrTruthy r.signature = true → jstrTruthy r.message = true →
        handleAuthentication recover chk api envOk hdrApiKey f1 f2 (some r) s
          = (⟨401, .errMsg "Invalid signature"⟩, s))
      ∧ (verifySignature recover (createSignableMessage c.message) c.signature c.address = false →
        jstrTruthy c.address = true → jstrTruthy c.signature = true →
        jstrTruthy c.message = true →
        ∀ uid, extractUserIdFromAuth (jsOrOptS auth1 auth2) = some uid → (uid == "") = false →
        handleConnectWallet recover chk api envOk envApiKey auth1 auth2 (some c) s
          = (⟨401, .errMsg "Invalid signature. Wallet ownership could not be verified."⟩, s)) := by
  intro σ api recover chk envOk hdrApiKey envApiKey auth1 auth2 f1 f2 r c s
  constructor
  · intro hv he ha hsg hm
    unfold handleAuthentication
    dsimp only
    simp [he, ha, hsg, hm, hv]
  · intro hv ha hsg hm uid hex hne
    unfold handleConnectWallet
    rw [hex]
    dsimp only
    simp [hne, ha, hsg, hm, hv]

theorem C9_invalid_signature_no_store_ops_witness :
    handleAuthentication (fun _ _ => none) jsToLower apiStore true (some "key") "f1" "f2"
        (some ⟨strToJ "a@x.com", strToJ "0xabc", strToJ "0xsig", strToJ "auth-1"⟩) ⟨[]⟩
      = (⟨401, .errMsg "Invalid signature"⟩, (⟨[]⟩ : Store))
    ∧ handleConnectWallet (fun _ _ => none) jsToLower apiStore true (some "k")
        (some "Bearer u1.s") none
        (some ⟨strToJ "0xabc", strToJ "0xsig", strToJ "auth-1"⟩) ⟨[]⟩
      = (⟨401, .errMsg "Invalid signature. Wallet ownership could not be verified."⟩,
         (⟨[]⟩ : Store)) :=
  ⟨(C9_invalid_signature_no_store_ops Store apiStore (fun _ _ => none) jsToLower true
      (some "key") (some "k") (some "Bearer u1.s") none "f1" "f2"
      ⟨strToJ "a@x.com", strToJ "0xabc", strToJ "0xsig", strToJ "auth-1"⟩
      ⟨strToJ "0xabc", strToJ "0xsig", strToJ "auth-1"⟩ ⟨[]⟩).1
      rfl (by decide) (by decide) (by decide) (by decide),
   (C9_invalid_signature_no_store_ops Store apiStore (fun _ _ => none) jsToLower true
      (some "key") (some "k") (some "Bearer u1.s") none "f1" "f2"
      ⟨strToJ "a@x.com", strToJ "0xabc", strToJ "0xsig", strToJ "auth-1"⟩
      ⟨strToJ "0xabc", strToJ "0xsig", strToJ "auth-1"⟩ ⟨[]⟩).2
      rfl (by decide) (by decide) (by decide) "u1" (by decide) (by decide)⟩

theorem find?_upd_store (l : List User) (uid : String) (p0 : Prefs) :
    (l.map (fun v => if v.id = uid then { v with prefs := p0 } else v)).find?
        (fun v => v.id == uid)
      = (l.find? (fun v => v.id == uid)).map (fun v => { v with prefs := p0 }) := by
  induction l with
  | nil => rfl
  | cons a t ih =>
    by_cases ha : a.id = uid
    · rw [List.map_cons, if_pos ha, List.find?_cons_of_pos _ (by simpa using ha),
        List.find?_cons_of_pos _ (by simp [ha])]
      rfl
    · rw [List.map_cons, if_neg ha, List.find?_cons_of_neg _ (by simpa using ha),
        List.find?_cons_of_neg _ (by simpa using ha)]
      exact ih

theorem handleDisc_found (envApiKey auth1 auth2 : Option String) (uid : String)
    (u : User) (s : Store)
    (hex : extractUserIdFromAuth (jsOrOptS auth1 auth2) = some uid)
    (hne : (uid == "") = false) (hk : optSTruthy envApiKey = true)
    (hfind : s.users.find? (fun v => v.id == uid) = some u) :
    handleDisconnectWallet apiStore true envApiKey auth1 auth2 s =
      if truthyV (getP u.prefs wkKey) then
        (⟨200, .walletBody true uid "Wallet disconnected successfully from your account"⟩,
         ⟨s.users.map (fun v =>
            if v.id = uid then { v with prefs := delP u.prefs wkKey } else v)⟩)
      else
        (⟨200, .walletBody true uid "No wallet connected to this account"⟩, s) := by
  have hany : s.users.any (fun v => v.id == uid) = true := by
    rw [List.any_eq_true]
    exact ⟨u, List.mem_of_find?_eq_some hfind, by simpa using (List.find?_some hfind)⟩
  unfold handleDisconnectWallet apiStore
  rw [hex]
  dsimp only
  simp only [hne, hk, Bool.not_false, Bool.not_true, if_false, ite_false, hfind, hany,
    Bool.false_eq_true]
  by_cases hw : truthyV (getP u.prefs wkKey)
  · simp [hw]
  · simp [hw]

/-- **C8.** For an authenticated caller resolved to identity `uid`:
disconnect clears the stored wallet when one is present (deleting only the
`walletEth` key) and reports the clearing; when none is present it is a
no-op success — HTTP 200, the "no wallet" report (the code's
`hadWallet = false` branch), and state exactly unchanged; and an immediate
second disconnect after a clearing disconnect takes that no-op branch and
performs no write. -/
theorem C8_disconnect_clear_and_noop :
    ∀ (envApiKey auth1 auth2 : Option String) (uid : String) (u : User) (s : Store),
      extractUserIdFromAuth (jsOrOptS auth1 auth2) = some uid → (uid == "") = false →
      optSTruthy envApiKey = true →
      s.users.find? (fun v => v.id == uid) = some u →
      ((truthyV (getP u.prefs wkKey) = true →
        handleDisconnectWallet apiStore true envApiKey auth1 auth2 s
          = (⟨200, .walletBody true uid "Wallet disconnected successfully from your account"⟩,
             ⟨s.users.map (fun v =>
                if v.id = uid then { v with prefs := delP u.prefs wkKey } else v)⟩))
      ∧ (truthyV (getP u.prefs wkKey) = false →
        handleDisconnectWallet apiStore true envApiKey auth1 auth2 s
          = (⟨200, .walletBody true uid "No wallet connected to this account"⟩, s))
      ∧ (truthyV (getP u.prefs wkKey) = true →
        handleDisconnectWallet apiStore true envApiKey auth1 auth2
            (handleDisconnectWallet apiStore true envApiKey auth1 auth2 s).2
          = (⟨200, .walletBody true uid "No wallet connected to this account"⟩,
             (handleDisconnectWallet apiStore true envApiKey auth1 auth2 s).2))) := by
  intro envApiKey auth1 auth2 uid u s hex hne hk hfind
  have hrun := handleDisc_found envApiKey auth1 auth2 uid u s hex hne hk hfind
  refine ⟨fun hw => ?_, fun hw => ?_, fun hw => ?_⟩
  · rw [hrun, if_pos hw]
  · rw [hrun]
    simp [hw]
  · rw [hrun, if_pos hw]
    have hfind2 : (⟨s.users.map (fun v =>
        if v.id = uid then { v with prefs := delP u.prefs wkKey } else v)⟩ : Store).users.find?
          (fun v => v.id == uid)
        = some { u with prefs := delP u.prefs wkKey } := by
      show (s.users.map _).find? _ = _
      rw [find?_upd_store, hfind]
      rfl
    have hrun2 := handleDisc_found envApiKey auth1 auth2 uid
      { u with prefs := delP u.prefs wkKey }
      ⟨s.users.map (fun v => if v.id = uid then { v with prefs := delP u.prefs wkKey } else v)⟩
      hex hne hk hfind2
    rw [hrun2]
    simp [getP_delP_self, truthyV]

theorem C8_disconnect_clear_and_noop_witness :
    handleDisconnectWallet apiStore true (some "k") (some "Bearer u1.s") none
        ⟨[⟨"u1", strToJ "a@x.com", [(wkKey, .str (strToJ "0xdef")), ("color", .str (strToJ "red"))]⟩]⟩
      = (⟨200, .walletBody true "u1" "Wallet disconnected successfully from your account"⟩,
         ⟨[⟨"u1", strToJ "a@x.com", [("color", .str (strToJ "red"))]⟩]⟩) := by
  have h := (C8_disconnect_clear_and_noop (some "k") (some "Bearer u1.s") none "u1"
    ⟨"u1", strToJ "a@x.com", [(wkKey, .str (strToJ "0xdef")), ("color", .str (strToJ "red"))]⟩
    ⟨[⟨"u1", strToJ "a@x.com", [(wkKey, .str (strToJ "0xdef")), ("color", .str (strToJ "red"))]⟩]⟩
    (by decide) (by decide) (by decide) (by decide)).1 (by decide)
  rw [h]
  decide

/-- **C5.** Authenticate is idempotent for a fixed valid input: on a store
with no identity for the email, the first call creates the identity `f1`
and binds the normalized wallet (HTTP 200); a second call with the same
`(email, address, signature, message)` — whatever fresh ids it draws —
returns HTTP 200 with the SAME identity id, leaves the store exactly
unchanged (no duplicate identity, no preference write), via the code's
already-bound branch. -/
theorem C5_authenticate_idempotent :
    ∀ (recover : JStr → JStr → Option JStr) (chk : JStr → JStr)
      (hdrApiKey : Option String) (f1 f2 f1' f2' : String) (r : AuthReq) (s : Store),
      (∀ a, jsToLower (chk a) = jsToLower a) →
      s.users.filter (fun v => v.email == r.email) = [] →
      s.users.any (fun v => v.id == f1) = false →
      jstrTruthy r.email = true → jstrTruthy r.address = true →
      jstrTruthy r.signature = true → jstrTruthy r.message = true →
      verifySignature recover (createSignableMessage r.message) r.signature r.address = true →
      optSTruthy hdrApiKey = true →
      jstrTruthy (normalizeEthAddress chk r.address) = true →
      (handleAuthentication recover chk apiStore true hdrApiKey f1 f2 (some r) s
        = (⟨200, .tokenBody f1 "token-secret"⟩,
           ⟨s.users
             ++ [⟨f1, r.email, [(wkKey, .str (normalizeEthAddress chk r.address))]⟩]⟩))
      ∧ (handleAuthentication recover chk apiStore true hdrApiKey f1' f2' (some r)
          ⟨s.users ++ [⟨f1, r.email, [(wkKey, .str (normalizeEthAddress chk r.address))]⟩]⟩
        = (⟨200, .tokenBody f1 "token-secret"⟩,
           ⟨s.users
             ++ [⟨f1, r.email, [(wkKey, .str (normalizeEthAddress chk r.address))]⟩]⟩)) := by
  intro recover chk hdrApiKey f1 f2 f1' f2' r s hchk hnew hid he ha hsg hm hv hk hw
  have hn : jsToLower (normalizeEthAddress chk r.address) = normalizeEthAddress chk r.address := by
    rw [normalize_eq_lower_trim chk hchk, jsToLower_idem]
  constructor
  · unfold handleAuthentication
    dsimp only
    simp only [he, ha, hsg, hm, hv, hk, Bool.not_true, Bool.or_self, Bool.false_or,
      Bool.or_false, Bool.not_false, if_false, ite_false, Bool.false_eq_true]
    rw [focA_store_create s f1 f2 r.email (normalizeEthAddress chk r.address) hnew hid]
    unfold createCustomToken apiStore
    rfl
  · unfold handleAuthentication
    dsimp only
    simp only [he, ha, hsg, hm, hv, hk, Bool.not_true, Bool.or_self, Bool.false_or,
      Bool.or_false, Bool.not_false, if_false, ite_false, Bool.false_eq_true]
    have hf1 : (⟨s.users
        ++ [⟨f1, r.email, [(wkKey, .str (normalizeEthAddress chk r.address))]⟩]⟩ : Store).users.filter
          (fun v => v.email == r.email)
        = [⟨f1, r.email, [(wkKey, .str (normalizeEthAddress chk r.address))]⟩] := by
      show (s.users ++ _).filter _ = _
      rw [List.filter_append, hnew]
      simp
    have hpw : prefsWalletLower [(wkKey, .str (normalizeEthAddress chk r.address))]
        = some (normalizeEthAddress chk r.address) := by
      unfold prefsWalletLower getP
      simp [List.find?_cons, hn]
    have hew : ewTruthy (prefsWalletLower
        (⟨f1, r.email, [(wkKey, .str (normalizeEthAddress chk r.address))]⟩ : User).prefs) = true := by
      show ewTruthy (prefsWalletLower [(wkKey, .str (normalizeEthAddress chk r.address))]) = true
      rw [hpw]
      simpa [ewTruthy, jstrTruthy] using hw
    have hconf : ewConflict (prefsWalletLower
        (⟨f1, r.email, [(wkKey, .str (normalizeEthAddress chk r.address))]⟩ : User).prefs)
        (normalizeEthAddress chk r.address) = false := by
      show ewConflict (prefsWalletLower [(wkKey, .str (normalizeEthAddress chk r.address))]) _ = false
      rw [hpw]
      simp [ewConflict]
    rw [focA_store_already _ f1' f2' r.email (normalizeEthAddress chk r.address)
      _ [] hf1 hew hconf]
    unfold createCustomToken apiStore
    rfl

theorem C5_authenticate_idempotent_witness :
    handleAuthentication (fun _ _ => some (strToJ "0xabc")) jsToLower apiStore true
        (some "key") "u3" "u4"
        (some ⟨strToJ "a@x.com", strToJ "0xabc", strToJ "0xsig", strToJ "auth-1"⟩)
        ⟨[⟨"u1", strToJ "a@x.com",
           [(wkKey, .str (normalizeEthAddress jsToLower (strToJ "0xabc")))]⟩]⟩
      = (⟨200, .tokenBody "u1" "token-secret"⟩,
         ⟨[⟨"u1", strToJ "a@x.com",
            [(wkKey, .str (normalizeEthAddress jsToLower (strToJ "0xabc")))]⟩]⟩) := by
  have h := (C5_authenticate_idempotent (fun _ _ => some (strToJ "0xabc")) jsToLower
    (some "key") "u1" "u2" "u3" "u4"
    ⟨strToJ "a@x.com", strToJ "0xabc", strToJ "0xsig", strToJ "auth-1"⟩ ⟨[]⟩
    jsToLower_idem (by decide) (by decide) (by decide) (by decide) (by decide) (by decide)
    (by decide) (by decide) (by decide)).2
  simpa using h

theorem connectStore_cases (recover : JStr → JStr → Option JStr) (chk : JStr → JStr)
    (envOk : Bool) (envApiKey auth1 auth2 : Option String) (body : Option ConnReq)
    (s : Store) :
    (handleConnectWallet recover chk apiStore envOk envApiKey auth1 auth2 body s).2 = s
    ∨ (∃ u w, u ∈ s.users
        ∧ ewTruthy (prefsWalletLower u.prefs) = false
        ∧ (handleConnectWallet recover chk apiStore envOk envApiKey auth1 auth2 body s).2
          = ⟨s.users.map (fun v =>
              if v.id = u.id then { v with prefs := setP u.prefs wkKey (.str w) } else v)⟩) := by
  unfold handleConnectWallet
  rcases hext : extractUserIdFromAuth (jsOrOptS auth1 auth2) with _ | uid
  · exact Or.inl rfl
  · dsimp only
    split
    · exact Or.inl rfl
    · cases body with
      | none => exact Or.inl rfl
      | some r =>
        dsimp only
        split
        · exact Or.inl rfl
        · split
          · exact Or.inl rfl
          · split
            · exact Or.inl rfl
            · split
              · exact Or.inl rfl
              · rcases hfind : s.users.find? (fun v => v.id == uid) with _ | u
                · unfold apiStore
                  dsimp only
                  rw [hfind]
                  exact Or.inl rfl
                · have hid : u.id = uid := by
                    simpa using List.find?_some hfind
                  have hmem : u ∈ s.users := List.mem_of_find?_eq_some hfind
                  have hany : s.users.any (fun v => v.id == uid) = true := by
                    rw [List.any_eq_true]
                    exact ⟨u, hmem, by simpa using hid⟩
                  unfold apiStore
                  dsimp only
                  rw [hfind]
                  dsimp only
                  split
                  · exact Or.inl rfl
                  · split
                    · exact Or.inl rfl
                    · rename_i halready hconf
                      have hew : ewTruthy (prefsWalletLower u.prefs) = false := by
                        by_contra hc
                        have hew1 : ewTruthy (prefsWalletLower u.prefs) = true := by
                          simpa using hc
                        rcases hpw : prefsWalletLower u.prefs with _ | w0
                        · rw [hpw] at hew1
                          simp [ewTruthy] at hew1
                        · rw [hpw] at hew1
                          by_cases heq : w0 = normalizeEthAddress chk r.address
                          · subst heq
                            exact halready (by
                              rw [hpw]
                              simp [hew1])
                          · exact hconf (by
                              rw [hpw]
                              unfold ewConflict
                              simp only [ewTruthy] at hew1
                              simp [hew1, heq])
                      simp only [hany]
                      refine Or.inr ⟨u, normalizeEthAddress chk r.address, hmem, hew, ?_⟩
                      rw [hid]

theorem discStore_cases (envOk : Bool) (envApiKey auth1 auth2 : Option String) (s : Store) :
    (handleDisconnectWallet apiStore envOk envApiKey auth1 auth2 s).2 = s
    ∨ (∃ u, u ∈ s.users
        ∧ (handleDisconnectWallet apiStore envOk envApiKey auth1 auth2 s).2
          = ⟨s.users.map (fun v =>
              if v.id = u.id then { v with prefs := delP u.prefs wkKey } else v)⟩) := by
  unfold handleDisconnectWallet
  rcases hext : extractUserIdFromAuth (jsOrOptS auth1 auth2) with _ | uid
  · exact Or.inl rfl
  · dsimp only
    split
    · exact Or.inl rfl
    · split
      · exact Or.inl rfl
      · split
        · exact Or.inl rfl
        · rcases hfind : s.users.find? (fun v => v.id == uid) with _ | u
          · unfold apiStore
            dsimp only
            rw [hfind]
            exact Or.inl rfl
          · have hid : u.id = uid := by
              simpa using List.find?_some hfind
            have hmem : u ∈ s.users := List.mem_of_find?_eq_some hfind
            have hany : s.users.any (fun v => v.id == uid) = true := by
              rw [List.any_eq_true]
              exact ⟨u, hmem, by simpa using hid⟩
            unfold apiStore
            dsimp only
            rw [hfind]
            dsimp only
            split
            · exact Or.inl rfl
            · simp only [hany]
              refine Or.inr ⟨u, hmem, ?_⟩
              rw [hid]

theorem authStore_cases (recover : JStr → JStr → Option JStr) (chk : JStr → JStr)
    (envOk : Bool) (hdrApiKey : Option String) (f1 f2 : String) (body : Option AuthReq)
    (s : Store)
    (h1 : s.users.any (fun v => v.id == f1) = false) :
    (handleAuthentication recover chk apiStore envOk hdrApiKey f1 f2 body s).2 = s
    ∨ (∃ u w, u ∈ s.users
        ∧ ewTruthy (prefsWalletLower u.prefs) = false
        ∧ (handleAuthentication recover chk apiStore envOk hdrApiKey f1 f2 body s).2
          = ⟨s.users.map (fun v =>
              if v.id = u.id then { v with prefs := setP u.prefs wkKey (.str w) } else v)⟩)
    ∨ (∃ em w, (handleAuthentication recover chk apiStore envOk hdrApiKey f1 f2 body s).2
        = ⟨s.users ++ [⟨f1, em, [(wkKey, .str w)]⟩]⟩) := by
  cases body with
  | none => exact Or.inl rfl
  | some r =>
    unfold handleAuthentication
    dsimp only
    split
    · exact Or.inl rfl
    · split
      · exact Or.inl rfl
      · split
        · exact Or.inl rfl
        · split
          · exact Or.inl rfl
          · rcases hfilter : s.users.filter (fun v => v.email == r.email) with _ | ⟨u, t⟩
            · rw [focA_store_create s f1 f2 r.email
                (normalizeEthAddress chk r.address) hfilter h1]
              refine Or.inr (Or.inr ⟨r.email, normalizeEthAddress chk r.address, ?_⟩)
              unfold createCustomToken apiStore
              rfl
            · by_cases hpk : (truthyV (getP u.prefs pkKey)
                  && !ewTruthy (prefsWalletLower u.prefs)) = true
              · rcases Bool.and_eq_true_iff.mp hpk with ⟨hpk1, hew1⟩
                have hew : ewTruthy (prefsWalletLower u.prefs) = false := by
                  simpa using hew1
                rw [focA_store_passkey s f1 f2 r.email
                  (normalizeEthAddress chk r.address) u t hfilter hpk1 hew]
                exact Or.inl rfl
              · by_cases hconf : ewConflict (prefsWalletLower u.prefs)
                    (normalizeEthAddress chk r.address) = true
                · rw [focA_store_conflict s f1 f2 r.email
                    (normalizeEthAddress chk r.address) u t hfilter hconf]
                  exact Or.inl rfl
                · by_cases hew : ewTruthy (prefsWalletLower u.prefs) = true
                  · rw [focA_store_already s f1 f2 r.email
                      (normalizeEthAddress chk r.address) u t hfilter hew
                      (by simpa using hconf)]
                    exact Or.inl rfl
                  · have hew2 : ewTruthy (prefsWalletLower u.prefs) = false := by
                      simpa using hew
                    have hpk2 : truthyV (getP u.prefs pkKey) = false := by
                      by_contra hc
                      exact hpk (by simp [hew2, by simpa using hc])
                    rw [focA_store_bind s f1 f2 r.email
                      (normalizeEthAddress chk r.address) u t hfilter hpk2 hew2]
                    refine Or.inr (Or.inl ⟨u, normalizeEthAddress chk r.address,
                      List.mem_of_mem_filter (by rw [hfilter]; simp), hew2, ?_⟩)
                    unfold createCustomToken apiStore
                    rfl

/-- The wallet bound to an identity: the stored `walletEth` string when it
is truthy (the decision logic treats `""` and a missing key as unbound). -/
def boundW (u : User) : Option JStr :=
  match prefsWalletLower u.prefs with
  | some s => if s.isEmpty then none else some s
  | none => none

/-- Fresh ids an operation may consume (`ID.unique()` draws). -/
def opFresh : SysOp → List String
  | .authOp _ f1 f2 _ => [f1, f2]
  | .connectOp _ _ _ => []
  | .disconnectOp _ _ => []

/-- Whether an operation is a disconnect. -/
def opIsDisc : SysOp → Bool
  | .disconnectOp _ _ => true
  | _ => false

/-- Fresh ids consumed along a request sequence. -/
def opsFresh (ops : List SysOp) : List String :=
  ops.foldr (fun op acc => opFresh op ++ acc) []

theorem boundW_some_truthy (u : User) (w : JStr) (h : boundW u = some w) :
    ewTruthy (prefsWalletLower u.prefs) = true := by
  unfold boundW at h
  rcases hpw : prefsWalletLower u.prefs with _ | s
  · rw [hpw] at h
    simp at h
  · rw [hpw] at h
    dsimp only at h
    unfold ewTruthy
    by_cases he : s.isEmpty
    · rw [if_pos he] at h
      simp at h
    · dsimp only
      simp [he]

theorem runOp_cases (cfg : Cfg) (op : SysOp) (s : Store)
    (hfr : ∀ f ∈ opFresh op, s.users.any (fun v => v.id == f) = false) :
    (runOp cfg op s).2 = s
    ∨ (∃ u p0, u ∈ s.users
        ∧ ((ewTruthy (prefsWalletLower u.prefs) = false
            ∧ ∃ w, p0 = setP u.prefs wkKey (.str w))
          ∨ (opIsDisc op = true ∧ p0 = delP u.prefs wkKey))
        ∧ (runOp cfg op s).2
          = ⟨s.users.map (fun v => if v.id = u.id then { v with prefs := p0 } else v)⟩)
    ∨ (∃ f em w, f ∈ opFresh op
        ∧ (runOp cfg op s).2 = ⟨s.users ++ [⟨f, em, [(wkKey, .str w)]⟩]⟩) := by
  cases op with
  | authOp hdrApiKey f1 f2 body =>
    have h1 : s.users.any (fun v => v.id == f1) = false := hfr f1 (by simp [opFresh])
    rcases authStore_cases cfg.recover cfg.chk cfg.envOk hdrApiKey f1 f2 body s h1 with
      h | ⟨u, w, hmem, hew, hst⟩ | ⟨em, w, hst⟩
    · exact Or.inl h
    · exact Or.inr (Or.inl ⟨u, _, hmem, Or.inl ⟨hew, w, rfl⟩, hst⟩)
    · exact Or.inr (Or.inr ⟨f1, em, w, by simp [opFresh], hst⟩)
  | connectOp a1 a2 body =>
    rcases connectStore_cases cfg.recover cfg.chk cfg.envOk cfg.envApiKey a1 a2 body s with
      h | ⟨u, w, hmem, hew, hst⟩
    · exact Or.inl h
    · exact Or.inr (Or.inl ⟨u, _, hmem, Or.inl ⟨hew, w, rfl⟩, hst⟩)
  | disconnectOp a1 a2 =>
    rcases discStore_cases cfg.envOk cfg.envApiKey a1 a2 s with h | ⟨u, hmem, hst⟩
    · exact Or.inl h
    · exact Or.inr (Or.inl ⟨u, _, hmem, Or.inr ⟨rfl, rfl⟩, hst⟩)

/-- Each operation preserves the id list or appends one fresh id. -/
theorem runOp_ids (cfg : Cfg) (op : SysOp) (s : Store)
    (hfr : ∀ f ∈ opFresh op, s.users.any (fun v => v.id == f) = false) :
    (runOp cfg op s).2.users.map User.id = s.users.map User.id
    ∨ ∃ f ∈ opFresh op,
        (runOp cfg op s).2.users.map User.id = s.users.map User.id ++ [f] := by
  rcases runOp_cases cfg op s hfr with h | ⟨u, p0, _, _, hst⟩ | ⟨f, em, w, hf, hst⟩
  · exact Or.inl (by rw [h])
  · left
    rw [hst]
    show (s.users.map _).map User.id = _
    rw [List.map_map]
    apply List.map_congr_left
    intro v _
    by_cases hc : v.id = u.id <;> simp [hc]
  · exact Or.inr ⟨f, hf, by rw [hst]; simp⟩

/-- One non-disconnect operation preserves a bound wallet. -/
theorem runOp_preserve_bound (cfg : Cfg) (op : SysOp) (s : Store)
    (hfr : ∀ f ∈ opFresh op, s.users.any (fun v => v.id == f) = false)
    (hnd : (s.users.map User.id).Nodup) (hnodisc : opIsDisc op = false)
    (u : User) (hu : u ∈ s.users) (w : JStr) (hw : boundW u = some w) :
    ∃ u' ∈ (runOp cfg op s).2.users, u'.id = u.id ∧ boundW u' = some w := by
  have hinj : ∀ a ∈ s.users, ∀ b ∈ s.users, a.id = b.id → a = b := fun a ha b hb hab =>
    List.inj_on_of_nodup_map hnd ha hb hab
  rcases runOp_cases cfg op s hfr with h | ⟨v, p0, hv, hp0, hst⟩ | ⟨f, em, w0, hf, hst⟩
  · exact ⟨u, by rw [h]; exact hu, rfl, hw⟩
  · rcases hp0 with ⟨hewv, w1, hp⟩ | ⟨hdisc, _⟩
    · have hne : ¬(u.id = v.id) := by
        intro hc
        have hueq : u = v := hinj u hu v hv hc
        rw [hueq] at hw
        have h2 := boundW_some_truthy v w hw
        rw [hewv] at h2
        exact Bool.false_ne_true h2
      refine ⟨u, ?_, rfl, hw⟩
      rw [hst]
      exact List.mem_map.mpr ⟨u, hu, by rw [if_neg hne]⟩
    · rw [hdisc] at hnodisc
      exact absurd hnodisc (by simp)
  · refine ⟨u, ?_, rfl, hw⟩
    rw [hst]
    exact List.mem_append_left _ hu

/-- A sequence of authenticate/connect operations preserves every bound
wallet. -/
theorem runOps_preserve_bound (cfg : Cfg) :
    ∀ (ops : List SysOp) (s : Store),
      ((s.users.map User.id) ++ opsFresh ops).Nodup →
      (∀ op ∈ ops, opIsDisc op = false) →
      ∀ u ∈ s.users, ∀ w, boundW u = some w →
      ∃ u' ∈ (runOps cfg ops s).users, u'.id = u.id ∧ boundW u' = some w := by
  intro ops
  induction ops with
  | nil =>
    intro s _ _ u hu w hw
    exact ⟨u, hu, rfl, hw⟩
  | cons op rest ih =>
    intro s hnd hnodisc u hu w hw
    have hnd_ids : (s.users.map User.id).Nodup := (List.nodup_append.mp hnd).1
    have hdisj : List.Disjoint (s.users.map User.id) (opsFresh (op :: rest)) :=
      (List.nodup_append.mp hnd).2.2
    have hfr : ∀ f ∈ opFresh op, s.users.any (fun v => v.id == f) = false := by
      intro f hf
      rw [List.any_eq_false]
      intro v hv
      simp only [beq_iff_eq]
      intro hc
      exact hdisj (List.mem_map.mpr ⟨v, hv, hc⟩)
        (by
          show f ∈ opsFresh (op :: rest)
          have hcons : opsFresh (op :: rest) = opFresh op ++ opsFresh rest := rfl
          rw [hcons]
          exact List.mem_append_left _ hf)
    obtain ⟨u1, hu1, hid1, hw1⟩ :=
      runOp_preserve_bound cfg op s hfr hnd_ids (hnodisc op (by simp)) u hu w hw
    have hsub : List.Sublist ((runOp cfg op s).2.users.map User.id ++ opsFresh rest)
        ((s.users.map User.id) ++ opsFresh (op :: rest)) := by
      have hcons : opsFresh (op :: rest) = opFresh op ++ opsFresh rest := rfl
      rcases runOp_ids cfg op s hfr with h | ⟨f, hf, h⟩
      · rw [h, hcons]
        exact (List.Sublist.refl _).append (List.sublist_append_right _ _)
      · rw [h, hcons, List.append_assoc]
        exact (List.Sublist.refl _).append
          ((List.singleton_sublist.mpr hf).append (List.Sublist.refl _))
    obtain ⟨u', hu', hid', hw'⟩ :=
      ih (runOp cfg op s).2 (hnd.sublist hsub)
        (fun o ho => hnodisc o (by simp [ho])) u1 hu1 w hw1
    refine ⟨u', ?_, by rw [hid', hid1], hw'⟩
    show u' ∈ (runOps cfg (op :: rest) s).users
    have hruns : runOps cfg (op :: rest) s = runOps cfg rest (runOp cfg op s).2 := by
      unfold runOps
      rw [List.foldl_cons]
    rw [hruns]
    exact hu'

theorem boundW_parts (u : User) (w0 : JStr) (h : boundW u = some w0) :
    prefsWalletLower u.prefs = some w0 ∧ w0.isEmpty = false := by
  unfold boundW at h
  rcases hpw : prefsWalletLower u.prefs with _ | s
  · rw [hpw] at h
    simp at h
  · rw [hpw] at h
    dsimp only at h
    by_cases he : s.isEmpty
    · rw [if_pos he] at h
      simp at h
    · rw [if_neg he] at h
      have hs : s = w0 := by simpa using h
      subst hs
      exact ⟨rfl, by simpa using he⟩

theorem auth_conflict_403 (recover : JStr → JStr → Option JStr) (chk : JStr → JStr)
    (hdrApiKey : Option String) (f1 f2 : String) (r : AuthReq) (s : Store)
    (u : User) (t : List User) (w0 : JStr)
    (hf : s.users.filter (fun v => v.email == r.email) = u :: t)
    (hw : boundW u = some w0)
    (hne : w0 ≠ normalizeEthAddress chk r.address)
    (he : jstrTruthy r.email = true) (ha : jstrTruthy r.address = true)
    (hsg : jstrTruthy r.signature = true) (hm : jstrTruthy r.message = true)
    (hv : verifySignature recover (createSignableMessage r.message) r.signature r.address = true)
    (hk : optSTruthy hdrApiKey = true) :
    handleAuthentication recover chk apiStore true hdrApiKey f1 f2 (some r) s
      = (⟨403, .errMsg diffWalletMsg⟩, s) := by
  obtain ⟨hpw, hemp⟩ := boundW_parts u w0 hw
  have hconf : ewConflict (prefsWalletLower u.prefs)
      (normalizeEthAddress chk r.address) = true := by
    rw [hpw]
    unfold ewConflict
    simp [hemp, hne]
  unfold handleAuthentication
  dsimp only
  simp only [he, ha, hsg, hm, hv, hk, Bool.not_true, Bool.or_self, Bool.false_or,
    Bool.or_false, Bool.not_false, if_false, ite_false, Bool.false_eq_true]
  rw [focA_store_conflict s f1 f2 r.email (normalizeEthAddress chk r.address) u t hf hconf]
  simp only [show strIncludes (vErr diffWalletMsg).message "different wallet" = true
    from by decide, Bool.or_true]
  simp [jsOrS, vErr, diffWalletMsg]

theorem connect_conflict_403 (recover : JStr → JStr → Option JStr) (chk : JStr → JStr)
    (envApiKey auth1 auth2 : Option String) (r : ConnReq) (s : Store)
    (uid : String) (u : User) (w0 : JStr)
    (hext : extractUserIdFromAuth (jsOrOptS auth1 auth2) = some uid)
    (hne0 : (uid == "") = false)
    (hfind : s.users.find? (fun v => v.id == uid) = some u)
    (hw : boundW u = some w0)
    (hne : w0 ≠ normalizeEthAddress chk r.address)
    (ha : jstrTruthy r.address = true) (hsg : jstrTruthy r.signature = true)
    (hm : jstrTruthy r.message = true)
    (hv : verifySignature recover (createSignableMessage r.message) r.signature r.address = true)
    (hk : optSTruthy envApiKey = true) :
    handleConnectWallet recover chk apiStore true envApiKey auth1 auth2 (some r) s
      = (⟨403,
          .errMsg "Account already has a connected wallet. Disconnect the existing wallet first."⟩,
         s) := by
  obtain ⟨hpw, hemp⟩ := boundW_parts u w0 hw
  have hconf : ewConflict (prefsWalletLower u.prefs)
      (normalizeEthAddress chk r.address) = true := by
    rw [hpw]
    unfold ewConflict
    simp [hemp, hne]
  have halready : (ewTruthy (prefsWalletLower u.prefs)
      && decide (prefsWalletLower u.prefs
          = some (normalizeEthAddress chk r.address))) = false := by
    rw [hpw]
    simp [hne]
  unfold handleConnectWallet
  rw [hext]
  dsimp only
  simp only [hne0, ha, hsg, hm, hv, hk, Bool.not_true, Bool.or_self, Bool.false_or,
    Bool.or_false, Bool.not_false, if_false, ite_false, Bool.false_eq_true]
  unfold apiStore
  dsimp only
  rw [hfind]
  dsimp only
  simp only [halready, hconf]
  rfl

/-- **C10.** Frame property of every preference write: whatever single
operation runs (authenticate, connect-wallet, or disconnect-wallet), every
pre-existing identity's preference bag is changed at most at the
`walletEth` key — connect and first-time binding spread the existing bag
(`setP`), disconnect copies the bag and deletes only `walletEth` (`delP`),
and a freshly created identity's bag holds only `walletEth` — so every
other key (`passkey_credentials` and unrecognized keys alike) reads the
same after the operation as before. -/
theorem C10_pref_frame :
    ∀ (cfg : Cfg) (op : SysOp) (s : Store),
      (s.users.map User.id).Nodup →
      (∀ f ∈ opFresh op, s.users.any (fun v => v.id == f) = false) →
      ∀ u ∈ s.users, ∀ u' ∈ (runOp cfg op s).2.users, u'.id = u.id →
      ∀ k, k ≠ wkKey → getP u'.prefs k = getP u.prefs k := by
  intro cfg op s hnd hfr u hu u' hu' hid k hk
  have hinj : ∀ a ∈ s.users, ∀ b ∈ s.users, a.id = b.id → a = b := fun a ha b hb hab =>
    List.inj_on_of_nodup_map hnd ha hb hab
  rcases runOp_cases cfg op s hfr with h | ⟨v, p0, hv, hp0, hst⟩ | ⟨f, em, w, hf, hst⟩
  · rw [h] at hu'
    rw [hinj u' hu' u hu hid]
  · rw [hst] at hu'
    rcases List.mem_map.mp hu' with ⟨v0, hv0, hveq⟩
    by_cases hc : v0.id = v.id
    · rw [if_pos hc] at hveq
      have hv0id : v0.id = u.id := by
        rw [← hid, ← hveq]
      have hv0u : v0 = u := hinj v0 hv0 u hu hv0id
      have hvu : v = u := hinj v hv u hu (by rw [← hc, hv0id])
      rw [← hveq]
      show getP p0 k = getP u.prefs k
      rcases hp0 with ⟨_, w1, hp⟩ | ⟨_, hp⟩
      · rw [hp, hvu]
        exact getP_setP_ne u.prefs wkKey k (.str w1) hk
      · rw [hp, hvu]
        exact getP_delP_ne u.prefs wkKey k hk
    · rw [if_neg hc] at hveq
      rw [← hveq]
      rw [hinj v0 hv0 u hu (by rw [← hid, ← hveq])]
  · rw [hst] at hu'
    rcases List.mem_append.mp hu' with hin | hin
    · rw [hinj u' hin u hu hid]
    · have hun : u' = ⟨f, em, [(wkKey, .str w)]⟩ := by
        simpa using hin
      have hidf : u.id = f := by
        rw [← hid, hun]
      have hfr2 := hfr f hf
      rw [List.any_eq_false] at hfr2
      have h2 := hfr2 u hu
      simp [hidf] at h2

theorem C10_pref_frame_witness :
    getP [("color", PrefVal.str (strToJ "red"))] "color"
      = getP [(wkKey, PrefVal.str (strToJ "0xdef")), ("color", PrefVal.str (strToJ "red"))]
          "color" :=
  C10_pref_frame ⟨fun _ _ => none, jsToLower, true, some "k"⟩
    (.disconnectOp (some "Bearer u1.s") none)
    ⟨[⟨"u1", strToJ "a@x.com",
       [(wkKey, .str (strToJ "0xdef")), ("color", .str (strToJ "red"))]⟩]⟩
    (by decide) (by decide)
    ⟨"u1", strToJ "a@x.com", [(wkKey, .str (strToJ "0xdef")), ("color", .str (strToJ "red"))]⟩
    (by decide)
    ⟨"u1", strToJ "a@x.com", [("color", .str (strToJ "red"))]⟩
    (by decide) (by decide) "color" (by decide)

/-- **C3.** One-wallet invariant.  (1) Over any sequence of authenticate and
connect-wallet operations (no disconnects), an identity's bound wallet —
the single truthy `walletEth` string in its preference bag — never changes:
the identity survives with the same id and the same bound address.
(2)/(3) Any authenticate or connect-wallet attempt presenting an address
whose canonical form differs from the currently bound one is rejected with
HTTP 403 (the wallet-conflict reason) and the store — in particular the
stored address — is exactly unchanged. -/
theorem C3_one_wallet_invariant :
    (∀ (cfg : Cfg) (ops : List SysOp) (s : Store),
      ((s.users.map User.id) ++ opsFresh ops).Nodup →
      (∀ op ∈ ops, opIsDisc op = false) →
      ∀ u ∈ s.users, ∀ w, boundW u = some w →
      ∃ u' ∈ (runOps cfg ops s).users, u'.id = u.id ∧ boundW u' = some w)
    ∧ (∀ (recover : JStr → JStr → Option JStr) (chk : JStr → JStr)
        (hdrApiKey : Option String) (f1 f2 : String) (r : AuthReq) (s : Store)
        (u : User) (t : List User) (w0 : JStr),
        s.users.filter (fun v => v.email == r.email) = u :: t →
        boundW u = some w0 →
        w0 ≠ normalizeEthAddress chk r.address →
        jstrTruthy r.email = true → jstrTruthy r.address = true →
        jstrTruthy r.signature = true → jstrTruthy r.message = true →
        verifySignature recover (createSignableMessage r.message) r.signature r.address = true →
        optSTruthy hdrApiKey = true →
        handleAuthentication recover chk apiStore true hdrApiKey f1 f2 (some r) s
          = (⟨403, .errMsg diffWalletMsg⟩, s))
    ∧ (∀ (recover : JStr → JStr → Option JStr) (chk : JStr → JStr)
        (envApiKey auth1 auth2 : Option String) (r : ConnReq) (s : Store)
        (uid : String) (u : User) (w0 : JStr),
        extractUserIdFromAuth (jsOrOptS auth1 auth2) = some uid →
        (uid == "") = false →
        s.users.find? (fun v => v.id == uid) = some u →
        boundW u = some w0 →
        w0 ≠ normalizeEthAddress chk r.address →
        jstrTruthy r.address = true → jstrTruthy r.signature = true →
        jstrTruthy r.message = true →
        verifySignature recover (createSignableMessage r.message) r.signature r.address = true →
        optSTruthy envApiKey = true →
        handleConnectWallet recover chk apiStore true envApiKey auth1 auth2 (some r) s
          = (⟨403,
              .errMsg "Account already has a connected wallet. Disconnect the existing wallet first."⟩,
             s)) :=
  ⟨fun cfg ops s hnd hnodisc u hu w hw =>
      runOps_preserve_bound cfg ops s hnd hnodisc u hu w hw,
   fun recover chk hdrApiKey f1 f2 r s u t w0 hf hw hne he ha hsg hm hv hk =>
      auth_conflict_403 recover chk hdrApiKey f1 f2 r s u t w0 hf hw hne he ha hsg hm hv hk,
   fun recover chk envApiKey auth1 auth2 r s uid u w0 hext hne0 hfind hw hne ha hsg hm hv hk =>
      connect_conflict_403 recover chk envApiKey auth1 auth2 r s uid u w0 hext hne0 hfind
        hw hne ha hsg hm hv hk⟩

theorem C3_one_wallet_invariant_witness :
    handleAuthentication (fun _ _ => some (strToJ "0xbbb")) jsToLower apiStore true
        (some "key") "n1" "n2"
        (some ⟨strToJ "a@x.com", strToJ "0xbbb", strToJ "0xsig", strToJ "auth-1"⟩)
        ⟨[⟨"u1", strToJ "a@x.com", [(wkKey, .str (strToJ "0xabc"))]⟩]⟩
      = (⟨403, .errMsg diffWalletMsg⟩,
         ⟨[⟨"u1", strToJ "a@x.com", [(wkKey, .str (strToJ "0xabc"))]⟩]⟩) :=
  C3_one_wallet_invariant.2.1 (fun _ _ => some (strToJ "0xbbb")) jsToLower (some "key")
    "n1" "n2" ⟨strToJ "a@x.com", strToJ "0xbbb", strToJ "0xsig", strToJ "auth-1"⟩
    ⟨[⟨"u1", strToJ "a@x.com", [(wkKey, .str (strToJ "0xabc"))]⟩]⟩
    ⟨"u1", strToJ "a@x.com", [(wkKey, .str (strToJ "0xabc"))]⟩ [] (strToJ "0xabc")
    (by decide) (by decide) (by decide) (by decide) (by decide) (by decide) (by decide)
    (by decide) (by decide)
